import Mathlib

/-!
Verification of the Scan → Report → Fix pipeline of the audit-and-remediate
plugin repository (accessibility plugin and SEO plugin).  The JavaScript
sources are shallowly embedded: every function below is a direct translation
of the named script, with filesystem effects made explicit as an ordered list
of `(path, content)` write events, and the subprocess dispatch of the fix
orchestrators abstracted as an oracle parameter.  Paths are taken relative to
the project root (the JS `path.join(projectRoot, f)` prefix is elided
uniformly).  JavaScript strings are modelled as Lean `String`; all inputs in
scope are ASCII, so `Char.toLower`/`Char.toUpper` agree with the JS
`toLowerCase`/`toUpperCase` on the strings that occur.
-/

namespace CCP

/-! ## JavaScript string primitives -/

/-- Character test for the regex class `\s` (ASCII range). -/
def isWs (c : Char) : Bool :=
  c = ' ' || c = '\t' || c = '\n' || c = '\r' || c = '\x0b' || c = '\x0c'

/-- Character test for the regex class `\w` (ASCII). -/
def isWordChar (c : Char) : Bool :=
  c.isAlpha || c.isDigit || c = '_'

/-- Single-quote character, written by code to avoid a bare apostrophe. -/
def squote : Char := '\x27'

/-- Character test for the regex class matching a double or single quote. -/
def isQuote (c : Char) : Bool := c = '"' || c = squote

/-- Case-insensitive character comparison (ASCII). -/
def lowerEq (a b : Char) : Bool := a.toLower = b.toLower

/-- First index at or after `i` where `pat` occurs in `l`, if any. -/
def subIdxAux (pat : List Char) : Nat → List Char → Option Nat
  | i, [] => if pat.isPrefixOf ([] : List Char) then some i else none
  | i, c :: cs => if pat.isPrefixOf (c :: cs) then some i else subIdxAux pat (i + 1) cs

/-- Model of `haystack.indexOf(needle)` restricted to a found/not-found index. -/
def subIdx (s pat : String) : Option Nat := subIdxAux pat.data 0 s.data

/-- Model of `haystack.includes(needle)` / a plain-string regex `test`. -/
def containsSub (s pat : String) : Bool := (subIdx s pat).isSome

/-- Model of `s.indexOf(pat)` returning `-1` when absent. -/
def jsIndexOf (s pat : String) : Int :=
  match subIdx s pat with
  | some i => (i : Int)
  | none => -1

/-- Model of `s.indexOf(pat, start)` with a natural start offset. -/
def jsIndexOfFrom (s pat : String) (start : Nat) : Int :=
  match subIdxAux pat.data start (s.data.drop start) with
  | some i => (i : Int)
  | none => -1

/-- Model of `s.lastIndexOf(pat, upTo)`: the greatest occurrence index that is
at most `upTo`, or `-1`. -/
def jsLastIndexOfLe (s pat : String) (upTo : Nat) : Int :=
  let idxs := (List.range (s.length + 1)).filter
    (fun i => i ≤ upTo && pat.data.isPrefixOf (s.data.drop i))
  match idxs.getLast? with
  | some i => (i : Int)
  | none => -1

/-- Take the first `n` characters of a string (model of `s.slice(0, n)`). -/
def strTake (s : String) (n : Nat) : String := ⟨s.data.take n⟩

/-- Drop the first `n` characters of a string (model of `s.slice(n)`). -/
def strDrop (s : String) (n : Nat) : String := ⟨s.data.drop n⟩

/-- Model of `s.substring(a, b)`: negative arguments clamp to `0`, arguments
beyond the length clamp to the length, and the two are swapped when the first
exceeds the second. -/
def jsSubstring (s : String) (a b : Int) : String :=
  let n := s.length
  let clamp : Int → Nat := fun x => if x < 0 then 0 else if x > (n : Int) then n else x.toNat
  let ca := clamp a
  let cb := clamp b
  let lo := min ca cb
  let hi := max ca cb
  ⟨(s.data.drop lo).take (hi - lo)⟩

/-- Model of `s.substring(a)` (one-argument form, to the end). -/
def jsSubstringFrom (s : String) (a : Int) : String := jsSubstring s a (s.length : Int)

/-- Model of `Array.prototype.join` with separator `"\n"` on the line array. -/
def joinLines : List String → String
  | [] => ""
  | [l] => l
  | l :: rest => l ++ "\n" ++ joinLines rest

/-- Split a character list at every line break. -/
def splitLinesAux : List Char → List Char → List String
  | acc, [] => [⟨acc.reverse⟩]
  | acc, c :: rest =>
    if c = '\n' then (⟨acc.reverse⟩ : String) :: splitLinesAux [] rest
    else splitLinesAux (c :: acc) rest

/-- Model of `content.split('\n')`. -/
def splitLines (s : String) : List String := splitLinesAux [] s.data

/-- Lowercase an ASCII string, model of `s.toLowerCase()` on ASCII input. -/
def asciiLower (s : String) : String := ⟨s.data.map Char.toLower⟩

/-- Uppercase an ASCII string, model of `s.toUpperCase()` on ASCII input. -/
def asciiUpper (s : String) : String := ⟨s.data.map Char.toUpper⟩

/-- Render the 1-based line number the way JS template interpolation does. -/
def intStr (i : Int) : String :=
  if i < 0 then "-" ++ Nat.repr (-i).toNat else Nat.repr i.toNat

/-! ## Regex embeddings

Each definition below is the executable meaning of one literal regular
expression from the scripts, specialised to the exact pattern text. -/

/-- Match the literal `lit` at the head of `cs` (case sensitive), returning
the remainder. -/
def litAt : List Char → List Char → Option (List Char)
  | [], cs => some cs
  | _ :: _, [] => none
  | p :: ps, c :: cs => if p = c then litAt ps cs else none

/-- Match the literal `lit` at the head of `cs` case-insensitively, returning
the remainder. -/
def litAtCI : List Char → List Char → Option (List Char)
  | [], cs => some cs
  | _ :: _, [] => none
  | p :: ps, c :: cs => if lowerEq p c then litAtCI ps cs else none

/-- At the head of `cs`, match `name` then `\s*` then `=`; used as the tail of
the attribute-presence patterns. -/
def attrEqTail (name : List Char) (cs : List Char) : Bool :=
  match litAt name cs with
  | some rest =>
    match rest.dropWhile isWs with
    | '=' :: _ => true
    | _ => false
  | none => false

/-- Test of a regex of shape `\bNAME\s*=` against `s` (case sensitive, as in
the scripts, which write these patterns without the `i` flag). -/
def hasWordAttrEqAux (name : List Char) : Bool → List Char → Bool
  | _, [] => false
  | prevW, c :: cs =>
    (!prevW && attrEqTail name (c :: cs)) || hasWordAttrEqAux name (isWordChar c) cs

/-- Test of `\bNAME\s*=` against a string, starting at a word boundary. -/
def hasWordAttrEq (name s : String) : Bool := hasWordAttrEqAux name.data false s.data

/-- Test of `/\balt\s*=/` (idempotency guard of the image fixes and the
scanner's `hasAlt` check). -/
def hasAltEq (s : String) : Bool := hasWordAttrEq "alt" s

/-- Test of `/\bhref\s*=/` from `fixDivToButton`. -/
def hasHrefEq (s : String) : Bool := hasWordAttrEq "href" s

/-- Test of `/tabindex\s*=/` (no word boundary in the source pattern). -/
def hasTabindexEqAux : List Char → Bool
  | [] => false
  | c :: cs => attrEqTail "tabindex".data (c :: cs) || hasTabindexEqAux cs

/-- Test of `/tabindex\s*=/` against a whole line. -/
def hasTabindexEq (s : String) : Bool := hasTabindexEqAux s.data

/-- At the head of `cs`, match `NAME\s*=\s*["']([^"']+)["']` and return the
captured value. -/
def attrValTail (name : List Char) (cs : List Char) : Option String :=
  match litAt name cs with
  | some rest =>
    match rest.dropWhile isWs with
    | '=' :: r2 =>
      match r2.dropWhile isWs with
      | q :: r4 =>
        if isQuote q then
          let v := r4.takeWhile (fun d => !isQuote d)
          let r5 := r4.dropWhile (fun d => !isQuote d)
          if v ≠ [] ∧ r5 ≠ [] then some ⟨v⟩ else none
        else none
      | [] => none
    | _ => none
  | none => none

/-- Search of `\bNAME\s*=\s*["']([^"']+)["']`, returning the first captured
value (model of `tag.match(...)` with one alternative name). -/
def attrValAux (name : List Char) : Bool → List Char → Option String
  | _, [] => none
  | prevW, c :: cs =>
    match (if prevW then none else attrValTail name (c :: cs)) with
    | some v => some v
    | none => attrValAux name (isWordChar c) cs

/-- First captured value of `\bNAME\s*=\s*["']([^"']+)["']` in `s`. -/
def attrVal (name s : String) : Option String := attrValAux name.data false s.data

/-- Search of `\b(class|className)\s*=\s*["']([^"']+)["']`: at each word
boundary the left alternative is tried first, then the right, as regex
backtracking does. -/
def attrVal2Aux (n1 n2 : List Char) : Bool → List Char → Option String
  | _, [] => none
  | prevW, c :: cs =>
    match (if prevW then none else
            match attrValTail n1 (c :: cs) with
            | some v => some v
            | none => attrValTail n2 (c :: cs)) with
    | some v => some v
    | none => attrVal2Aux n1 n2 (isWordChar c) cs

/-- First captured value of `\b(class|className)\s*=\s*["']([^"']+)["']`. -/
def classVal (s : String) : Option String :=
  attrVal2Aux "class".data "className".data false s.data

/-- Test of `\bNAME\s*=\s*["'][^"']+["']` (attribute present with a nonempty
value), used by the `role="img"` rule. -/
def hasAttrWithValue (name s : String) : Bool := (attrVal name s).isSome

/-- Case-insensitive substring test. -/
def containsCI (s pat : String) : Bool :=
  containsSub (asciiLower s) (asciiLower pat)

/-- Test of `/icon|decorat|separator|divider|spacer|background|bg-|ornament/i`
(the `DECORATIVE_HINTS` heuristic). -/
def decorativeHints (s : String) : Bool :=
  containsCI s "icon" || containsCI s "decorat" || containsCI s "separator" ||
  containsCI s "divider" || containsCI s "spacer" || containsCI s "background" ||
  containsCI s "bg-" || containsCI s "ornament"

/-- First match index of `/<NAME\s/` with optional case-insensitivity: the
index of `<`, requiring the tag name followed by one `\s` character. -/
def openTagIdxAux (ci : Bool) (name : List Char) : Nat → List Char → Option Nat
  | _, [] => none
  | i, c :: cs =>
    if c = '<' && (match (if ci then litAtCI name cs else litAt name cs) with
                   | some (w :: _) => isWs w
                   | _ => false) then
      some i
    else openTagIdxAux ci name (i + 1) cs

/-- First match index of `/<img\s/i` in a line (`fixImgAlt`). -/
def imgOpenIdx (s : String) : Option Nat := openTagIdxAux true "img".data 0 s.data

/-- First match index of `/<Image\s/` in a line (`fixNextImageAlt`; no `i`
flag in that pattern). -/
def nextImageOpenIdx (s : String) : Option Nat := openTagIdxAux false "Image".data 0 s.data

/-- At the head of `cs`, try to match `NAME` followed by one `\s` character
(case sensitive), returning the whitespace character. -/
def openTagTry (name : List Char) (cs : List Char) : Option Char :=
  match litAt name cs with
  | some (w :: _) => if isWs w then some w else none
  | _ => none

/-- First match of `/<(div|span)\s/` (case sensitive): index of `<`, the tag
name that matched, and the whitespace character consumed by `\s`. -/
def divSpanAux : Nat → List Char → Option (Nat × String × Char)
  | _, [] => none
  | i, c :: cs =>
    if c = '<' then
      match openTagTry "div".data cs with
      | some w => some (i, "div", w)
      | none =>
        match openTagTry "span".data cs with
        | some w => some (i, "span", w)
        | none => divSpanAux (i + 1) cs
    else divSpanAux (i + 1) cs

/-- First match of `/<(div|span)\s/` in a line. -/
def divSpanFind (s : String) : Option (Nat × String × Char) := divSpanAux 0 s.data

/-- At the head of `cs`, case-insensitively match one of the interactive tag
names followed by `\s`. -/
def interTagTryCI (cs : List Char) : Bool :=
  let one : List Char → Bool := fun name =>
    match litAtCI name cs with
    | some (w :: _) => isWs w
    | _ => false
  one "a".data || one "button".data || one "input".data ||
  one "select".data || one "textarea".data

/-- Test of `/<(a|button|input|select|textarea)\s/i` (nested-interactive
safety check of `fixDivToButton`). -/
def nestedInteractiveAux : List Char → Bool
  | [] => false
  | c :: cs => (c = '<' && interTagTryCI cs) || nestedInteractiveAux cs

/-- Test of the nested-interactive pattern against a string. -/
def nestedInteractive (s : String) : Bool := nestedInteractiveAux s.data

/-- Replace the first occurrence of the plain substring `pat` by `repl`
(model of `s.replace(plainPattern, repl)`). -/
def replaceFirstSub (pat repl s : String) : String :=
  match subIdx s pat with
  | some i => strTake s i ++ repl ++ strDrop s (i + pat.length)
  | none => s

/-- First index in `s` where `<TAG` is followed by a `\s` character, with that
whitespace character (search of `new RegExp('<' + tag + '(\\s)')`). -/
def findOpenWs (tag : String) (s : String) : Option (Nat × Char) :=
  let rec go : Nat → List Char → Option (Nat × Char)
    | _, [] => none
    | i, c :: cs =>
      if c = '<' then
        match openTagTry tag.data cs with
        | some w => some (i, w)
        | none => go (i + 1) cs
      else go (i + 1) cs
  go 0 s.data

/-- Model of `line.replace(new RegExp('<' + tag + '(\\s)'),
'<button type="button"$1')`: the first `<TAG\s` occurrence is replaced, the
captured whitespace preserved. -/
def replaceOpenTag (tag : String) (line : String) : String :=
  match findOpenWs tag line with
  | some (i, w) =>
    strTake line i ++ "<button type=\"button\"" ++ String.singleton w ++
      strDrop line (i + 1 + tag.length + 1)
  | none => line

/-! ## Data model

A `Finding`/issue record, as the duck-typed JSON object of the scripts.  The
`id` field defaults to the empty string, which stands for the property being
absent from the JSON object (scanner output has no `id`; report issues do).
The accessibility scanners fill `impact`, the SEO scanners `seoImpact`. -/

structure Issue where
  id : String := ""
  severity : String := ""
  category : String := ""
  file : String := ""
  line : Int := 1
  problem : String := ""
  impact : String := ""
  seoImpact : String := ""
  recommendedFix : String := ""
  autoFixPossible : Bool := false
  wcagCriteria : String := ""
  wcagLevel : String := ""
deriving Repr, DecidableEq

/-- Result of one fix-handler script: the serialized
`{ success, action?, reason? }` triple, together with the ordered list of
`(path, content)` filesystem writes the handler performed. -/
structure FixRes where
  success : Bool
  action : Option String := none
  reason : Option String := none
  writes : List (String × String) := []
deriving Repr, DecidableEq

/-- Failure result carrying a reason and performing no writes. -/
def fixFail (r : String) : FixRes := { success := false, reason := some r }

/-- Success result carrying an action description and the ordered writes. -/
def fixOk (a : String) (w : List (String × String)) : FixRes :=
  { success := true, action := some a, writes := w }

/-! ## Fix handlers (apply-images-fix.js, apply-semantics-fix.js) -/

/-- Embedding of `fixImgAlt` from apply-images-fix.js.  `filePath` is the
issue file resolved against the project root, `content` the full file
content, `lines` its split lines, `lineIdx` the 0-based validated line index,
`isDecorative` the flag chosen by the problem-text dispatch. -/
def fixImgAlt (issue : Issue) (filePath content : String) (lines : List String)
    (lineIdx : Nat) (isDecorative : Bool) : FixRes :=
  let line := lines.getD lineIdx ""
  match imgOpenIdx line with
  | none => fixFail "Could not find <img> on target line."
  | some tagStart =>
    let tagEnd : Int := jsIndexOfFrom line ">" tagStart
    let tag := jsSubstring line (tagStart : Int) (tagEnd + 1)
    if hasAltEq tag then fixFail "Image already has an alt attribute."
    else
      let altValue :=
        if isDecorative then ""
        else
          let srcMatch := attrVal "src" tag
          let classMatch := classVal tag
          let looksDecorative :=
            (match srcMatch with | some v => decorativeHints v | none => false) ||
            (match classMatch with | some v => decorativeHints v | none => false)
          if looksDecorative then "" else "TODO: describe image"
      let insertPos := tagStart + 5
      let newLine := strTake line insertPos ++ "alt=\"" ++ altValue ++ "\" " ++
        strDrop line insertPos
      let newLines := lines.set lineIdx newLine
      let desc :=
        if altValue = "" then
          "Added alt=\"\" (decorative) to <img> in " ++ issue.file ++ " line " ++
            intStr issue.line ++ "."
        else
          "Added alt=\"TODO: describe image\" to <img> in " ++ issue.file ++
            " line " ++ intStr issue.line ++ ". Please update."
      fixOk desc [(filePath ++ ".bak", content), (filePath, joinLines newLines)]

/-- Embedding of `fixNextImageAlt` from apply-images-fix.js. -/
def fixNextImageAlt (issue : Issue) (filePath content : String)
    (lines : List String) (lineIdx : Nat) : FixRes :=
  let line := lines.getD lineIdx ""
  match nextImageOpenIdx line with
  | none => fixFail "Could not find <Image> on target line."
  | some tagStart =>
    let tagEnd : Int := jsIndexOfFrom line ">" tagStart
    let tag := if tagEnd > -1 then jsSubstring line (tagStart : Int) (tagEnd + 1) else ""
    if hasAltEq tag || hasAltEq line then
      fixFail "Image component already has an alt attribute."
    else
      let insertPos := tagStart + 7
      let newLine := strTake line insertPos ++ "alt=\"TODO: describe image\" " ++
        strDrop line insertPos
      let newLines := lines.set lineIdx newLine
      fixOk ("Added alt=\"TODO: describe image\" to <Image> in " ++ issue.file ++
        " line " ++ intStr issue.line ++ ". Please update.")
        [(filePath ++ ".bak", content), (filePath, joinLines newLines)]

/-- Embedding of `applyFix` from apply-images-fix.js: problem-text dispatch to
the image fixes.  `content?` is `none` when the file does not exist. -/
def applyImagesFix (issue : Issue) (content? : Option String) : FixRes :=
  match content? with
  | none => fixFail ("File not found: " ++ issue.file)
  | some content =>
    let filePath := issue.file
    let lines := splitLines content
    let lineIdx : Int := if issue.line = 0 then -1 else issue.line - 1
    let problem := issue.problem
    if lineIdx < 0 ∨ (lines.length : Int) ≤ lineIdx then
      fixFail "Could not locate the issue line."
    else if containsSub problem "decorative" && containsSub problem "missing alt" then
      fixImgAlt issue filePath content lines lineIdx.toNat true
    else if containsSub problem "<img>" && containsSub problem "missing alt" then
      fixImgAlt issue filePath content lines lineIdx.toNat false
    else if containsSub problem "Image component missing alt" then
      fixNextImageAlt issue filePath content lines lineIdx.toNat
    else
      fixFail "This image issue requires manual review."

/-- Helper for `fixDivToButton`: scan the lines below the target for the
first one containing the closing pattern and replace its first occurrence
(the `for` loop of apply-semantics-fix.js lines 77 to 85).  Returns `none`
when no line contains the pattern. -/
def replaceCloseInLines (pat repl : String) : List String → Option (List String)
  | [] => none
  | l :: rest =>
    if containsSub l pat then some (replaceFirstSub pat repl l :: rest)
    else (replaceCloseInLines pat repl rest).map (l :: ·)

/-- Embedding of `fixDivToButton` from apply-semantics-fix.js.  The bounds
check on the line index is part of this function in the source. -/
def fixDivToButton (issue : Issue) (filePath content : String)
    (lines : List String) (lineIdxI : Int) : FixRes :=
  if lineIdxI < 0 ∨ (lines.length : Int) ≤ lineIdxI then
    fixFail "Could not locate the issue line."
  else
    let lineIdx := lineIdxI.toNat
    let line := lines.getD lineIdx ""
    match divSpanFind line with
    | none => fixFail "Could not find div/span on target line."
    | some (_, origTag, w) =>
      let matched := "<" ++ origTag ++ String.singleton w
      let fullTag := jsSubstringFrom line (jsIndexOf line matched)
      if nestedInteractive fullTag then
        fixFail "Nested interactive elements detected — cannot safely convert."
      else if hasHrefEq fullTag then
        fixFail "Element has href — should be a link, not a button."
      else
        let newLine0 := replaceOpenTag origTag line
        let closePat := "</" ++ origTag ++ ">"
        let sameLine := containsSub newLine0 closePat
        let newLine := if sameLine then replaceFirstSub closePat "</button>" newLine0
                       else newLine0
        let lines1 := lines.set lineIdx newLine
        let lines2? : Option (List String) :=
          if sameLine then some lines1
          else (replaceCloseInLines closePat "</button>" (lines1.drop (lineIdx + 1))).map
            (fun r => lines1.take (lineIdx + 1) ++ r)
        match lines2? with
        | none => fixFail ("Could not find closing </" ++ origTag ++ "> tag.")
        | some ls =>
          fixOk ("Replaced <" ++ origTag ++ " onClick> with <button type=\"button\"> in " ++
            issue.file ++ " line " ++ intStr issue.line ++ ".")
            [(filePath ++ ".bak", content), (filePath, joinLines ls)]

/-- Embedding of `addTabindex` from apply-semantics-fix.js. -/
def addTabindex (issue : Issue) (filePath content : String)
    (lines : List String) (lineIdxI : Int) : FixRes :=
  if lineIdxI < 0 ∨ (lines.length : Int) ≤ lineIdxI then
    fixFail "Could not locate the issue line."
  else
    let lineIdx := lineIdxI.toNat
    let line := lines.getD lineIdx ""
    if hasTabindexEq line then fixFail "Element already has tabindex."
    else
      match divSpanFind line with
      | none => fixFail "Could not find div/span on target line."
      | some (_, origTag, w) =>
        let matched := "<" ++ origTag ++ String.singleton w
        let insertPos := (jsIndexOf line matched).toNat + matched.length
        let newLine := strTake line insertPos ++ "tabindex=\"0\" " ++ strDrop line insertPos
        let newLines := lines.set lineIdx newLine
        fixOk ("Added tabindex=\"0\" in " ++ issue.file ++ " line " ++ intStr issue.line ++ ".")
          [(filePath ++ ".bak", content), (filePath, joinLines newLines)]

/-! ## Scanner (scan-images.js) -/

/-- Match the regex tail `\/?\s*>` at the head of `cs`, greedily trying the
optional slash first, returning the remainder after `>`. -/
def imgTailMatch (cs : List Char) : Option (List Char) :=
  let expectGt : List Char → Option (List Char) := fun l =>
    match l with
    | '>' :: r => some r
    | _ => none
  match cs with
  | '/' :: r =>
    match expectGt (r.dropWhile isWs) with
    | some r2 => some r2
    | none => expectGt (cs.dropWhile isWs)
  | _ => expectGt (cs.dropWhile isWs)

/-- Lazy match of `([^>]*?)\/?\s*>` at the head of `cs`: grow the capture one
character at a time until the tail matches, as regex lazy quantification
does.  Returns the captured attribute characters and the remainder after the
closing `>`. -/
def lazyAttrsAux : Nat → List Char → Option (List Char × List Char)
  | 0, _ => none
  | f + 1, cs =>
    match imgTailMatch cs with
    | some rest => some ([], rest)
    | none =>
      match cs with
      | [] => none
      | c :: cs' =>
        if c = '>' then none
        else
          match lazyAttrsAux f cs' with
          | some (a, r) => some (c :: a, r)
          | none => none

/-- All matches of `/<NAME\s([^>]*?)\/?\s*>/gi` over the content, as pairs of
match index and captured attribute string, scanning left to right with the
global-flag `lastIndex` progression. -/
def tagScanAux (name : List Char) : Nat → Nat → List Char → List (Nat × String)
  | 0, _, _ => []
  | _ + 1, _, [] => []
  | f + 1, pos, c :: rest =>
    if c = '<' then
      match litAtCI name rest with
      | some (w :: r2) =>
        if isWs w then
          match lazyAttrsAux (r2.length + 1) r2 with
          | some (attrs, remaining) =>
            let consumed := (c :: rest).length - remaining.length
            (pos, (⟨attrs⟩ : String)) :: tagScanAux name f (pos + consumed) remaining
          | none => tagScanAux name f (pos + 1) rest
        else tagScanAux name f (pos + 1) rest
      | _ => tagScanAux name f (pos + 1) rest
    else tagScanAux name f (pos + 1) rest

/-- All matches of the image-tag pattern for tag name `name` over `content`. -/
def tagScanCI (name content : String) : List (Nat × String) :=
  tagScanAux name.data (content.length + 1) 0 content.data

/-- Match of `role\s*=\s*["']img["']` (case-insensitive letters) at the head
of `cs`, returning the remainder. -/
def roleImgTry (cs : List Char) : Option (List Char) :=
  match litAtCI "role".data cs with
  | some r1 =>
    match r1.dropWhile isWs with
    | '=' :: r2 =>
      match r2.dropWhile isWs with
      | q1 :: r3 =>
        if isQuote q1 then
          match litAtCI "img".data r3 with
          | some (q2 :: r4) => if isQuote q2 then some r4 else none
          | _ => none
        else none
      | [] => none
    | _ => none
  | none => none

/-- All match indices of `/role\s*=\s*["']img["']/gi` over the content. -/
def roleImgAux : Nat → Nat → List Char → List Nat
  | 0, _, _ => []
  | _ + 1, _, [] => []
  | f + 1, pos, c :: rest =>
    match roleImgTry (c :: rest) with
    | some remaining =>
      let consumed := (c :: rest).length - remaining.length
      pos :: roleImgAux f (pos + consumed) remaining
    | none => roleImgAux f (pos + 1) rest

/-- All match indices of the `role="img"` pattern in `content`. -/
def roleImgIdxs (content : String) : List Nat :=
  roleImgAux (content.length + 1) 0 content.data

/-- The 1-based line number of offset `i`, computed as the source does by
counting line breaks in the preceding prefix. -/
def lineNumAt (content : String) (i : Nat) : Int :=
  (((content.data.take i).countP (fun c => c = '\n')) : Int) + 1

/-- Embedding of the per-file body of `scanImages` from scan-images.js: all
Findings the scanner emits for one file with relative path `relPath`, content
`content`, under the given framework tag. -/
def scanImagesFile (relPath content framework : String) : List Issue :=
  let imgIssues : List Issue :=
    (tagScanCI "img" content).flatMap (fun m =>
      let attrs := m.2
      let lineNum := lineNumAt content m.1
      if hasAltEq attrs then []
      else
        let srcMatch := attrVal "src" attrs
        let classMatch := classVal attrs
        let isLikelyDecorative :=
          (match srcMatch with | some v => decorativeHints v | none => false) ||
          (match classMatch with | some v => decorativeHints v | none => false)
        if isLikelyDecorative then
          [{ severity := "medium", category := "images", file := relPath,
             line := lineNum,
             problem := "Likely decorative <img> missing alt=\"\" — should have empty alt to be ignored by screen readers",
             impact := "Without alt=\"\", screen readers may announce the filename, which is confusing for decorative images.",
             recommendedFix := "Add alt=\"\" to mark this image as decorative.",
             autoFixPossible := true, wcagCriteria := "1.1.1", wcagLevel := "A" }]
        else
          [{ severity := "critical", category := "images", file := relPath,
             line := lineNum,
             problem := "<img> tag missing alt attribute",
             impact := "Screen readers cannot describe this image. Depending on browser, they may read the filename or URL, which is meaningless.",
             recommendedFix := "Add a descriptive alt attribute. If decorative, add alt=\"\".",
             autoFixPossible := true, wcagCriteria := "1.1.1", wcagLevel := "A" }])
  let nextIssues : List Issue :=
    if framework = "nextjs" then
      (tagScanCI "Image" content).flatMap (fun m =>
        let attrs := m.2
        let lineNum := lineNumAt content m.1
        if hasAltEq attrs then []
        else
          [{ severity := "critical", category := "images", file := relPath,
             line := lineNum,
             problem := "Next.js Image component missing alt attribute",
             impact := "Screen readers cannot describe this image.",
             recommendedFix := "Add alt=\"descriptive text\" or alt=\"\" if decorative.",
             autoFixPossible := true, wcagCriteria := "1.1.1", wcagLevel := "A" }])
    else []
  let roleIssues : List Issue :=
    (roleImgIdxs content).flatMap (fun idx =>
      let tagStart := jsLastIndexOfLe content "<" idx
      let tagEnd := jsIndexOfFrom content ">" idx
      let tag := jsSubstring content tagStart (tagEnd + 1)
      let hasAriaLabel := hasAttrWithValue "aria-label" tag
      let hasAriaLabelledBy := hasAttrWithValue "aria-labelledby" tag
      let hasAlt := hasAttrWithValue "alt" tag
      if !hasAriaLabel && !hasAriaLabelledBy && !hasAlt then
        [{ severity := "high", category := "images", file := relPath,
           line := lineNumAt content idx,
           problem := "Element with role=\"img\" has no accessible name",
           impact := "Screen readers identify this as an image but have no description to announce.",
           recommendedFix := "Add aria-label=\"description\" or aria-labelledby pointing to a visible label.",
           autoFixPossible := false, wcagCriteria := "1.1.1", wcagLevel := "A" }]
      else [])
  imgIssues ++ nextIssues ++ roleIssues

/-! ## Aggregator (generate-report.js, SEO plugin) -/

/-- The fixed category enumeration of generate-report.js. -/
def CATEGORIES : List String :=
  ["rendering", "title", "meta-description", "headings", "semantic-html",
   "url-structure", "images", "internal-links", "gtm"]

/-- Index of a string in a list, or `none`; model of `Array.prototype.indexOf`
before its `-1` conversion. -/
def idxInAux (x : String) : Nat → List String → Option Nat
  | _, [] => none
  | i, y :: ys => if y = x then some i else idxInAux x (i + 1) ys

/-- Model of `CATEGORIES.indexOf(category)`: the rank, `-1` when absent. -/
def catRank (c : String) : Int :=
  match idxInAux c 0 CATEGORIES with
  | some i => (i : Int)
  | none => -1

/-- Model of the `SEVERITY_ORDER` object lookup: `undefined` as `none`. -/
def sevLookup (s : String) : Option Int :=
  if s = "critical" then some 0
  else if s = "high" then some 1
  else if s = "medium" then some 2
  else if s = "low" then some 3
  else none

/-- Model of the JavaScript `x || d` default on a looked-up number: `0` is
falsy in JavaScript, so a stored rank of `0` also falls back to the
default. -/
def jsOrInt (v : Option Int) (d : Int) : Int :=
  match v with
  | some x => if x = 0 then d else x
  | none => d

/-- The severity rank the comparator of generate-report.js actually uses:
`SEVERITY_ORDER[severity] || 3`. -/
def sevRankJs (s : String) : Int := jsOrInt (sevLookup s) 3

/-- Strict comparator order of the sort in generate-report.js lines 75 to 80:
category rank first, then the severity rank as computed above. -/
def seoCmpLt (a b : Issue) : Bool :=
  catRank a.category < catRank b.category ||
  (catRank a.category = catRank b.category && sevRankJs a.severity < sevRankJs b.severity)

/-- Stable insertion of one element: it goes before the first element that is
not strictly below it, preserving the original relative order of ties. -/
def insertByRank (x : Issue) : List Issue → List Issue
  | [] => [x]
  | y :: ys => if seoCmpLt y x then y :: insertByRank x ys else x :: y :: ys

/-- Stable sort by the comparator.  `Array.prototype.sort` is required to be
stable and the comparator is consistent (it is induced by a numeric key), so
any stable sorting algorithm computes the same permutation; stable insertion
sort is used as the executable model. -/
def seoSortIssues : List Issue → List Issue
  | [] => []
  | x :: xs => insertByRank x (seoSortIssues xs)

/-- Model of `String(n).padStart(3, '0')`. -/
def padStart3 (s : String) : String :=
  if 3 ≤ s.length then s else (⟨List.replicate (3 - s.length) '0'⟩ : String) ++ s

/-- The assigned identifier string for 1-based position `n`. -/
def seoIdOf (n : Nat) : String := "SEO-" ++ padStart3 (Nat.repr n)

/-- Sequential id assignment after sorting; `{id: ..., ...issue}` spreads the
issue afterwards, so an id already present on the issue wins over the fresh
one (an empty `id` field models the property being absent). -/
def seoAssignFrom : Nat → List Issue → List Issue
  | _, [] => []
  | n, i :: rest =>
    (if i.id = "" then { i with id := seoIdOf n } else i) :: seoAssignFrom (n + 1) rest

/-- The sort-then-assign step of `generateReport` (lines 74 to 85): the
`issues` array of the resulting Report. -/
def seoSortAndAssign (issues : List Issue) : List Issue :=
  seoAssignFrom 1 (seoSortIssues issues)

/-! ## Fix orchestrators (apply-fix.js of both plugins)

The orchestrators run each category fix script as a subprocess.  That
dispatch is abstracted as an oracle `dispatch : Issue → DispatchRes`: a
normal exit with parseable output is `Except.ok` of the parsed triple, and
any abnormal execution (crash, timeout, malformed output — everything the
`try/catch` around `execSync`/`JSON.parse` catches) is `Except.error` with
the error message.  `writes` are the filesystem writes the subprocess
performed before returning. -/

/-- The parsed `{ success, action?, reason? }` output of a handler script. -/
structure JsRes where
  success : Bool
  action : Option String := none
  reason : Option String := none
deriving Repr, DecidableEq

/-- Outcome of one subprocess dispatch. -/
structure DispatchRes where
  out : Except String JsRes
  writes : List (String × String) := []

/-- Entry of the `fixed` output list. -/
structure FixEntry where
  id : String
  file : String
  problem : String
  action : Option String
  dryRun : Bool := false
deriving Repr, DecidableEq

/-- Entry of the `skipped` output list. -/
structure SkipEntry where
  id : String
  file : String
  problem : String
  reason : Option String
deriving Repr, DecidableEq

/-- Entry of the `recommendations` (SEO) / `manualReview` (accessibility)
output list. -/
structure RecEntry where
  id : String
  file : String
  problem : String
  recommendation : String
  reason : String
deriving Repr, DecidableEq

/-- Result of one orchestrator invocation: the printed outcome lists, the
issues for which a handler subprocess was actually executed (`calls`), and
the ordered filesystem writes of the whole run. -/
structure OrchOut where
  success : Bool := true
  fixed : List FixEntry := []
  skipped : List SkipEntry := []
  manual : List RecEntry := []
  calls : List Issue := []
  writes : List (String × String) := []

/-- The loaded report, of which the orchestrators read only `issues`. -/
structure Report where
  issues : List Issue := []

/-- Script table of the SEO orchestrator (part of `applyCategoryFix`). -/
def seoScript (cat : String) : Option String :=
  if cat = "title" then some "apply-meta-fix.js"
  else if cat = "meta-description" then some "apply-meta-fix.js"
  else if cat = "headings" then some "apply-heading-fix.js"
  else if cat = "semantic-html" then some "apply-semantic-fix.js"
  else if cat = "images" then some "apply-image-fix.js"
  else if cat = "internal-links" then some "apply-link-fix.js"
  else none

/-- Script table of the accessibility orchestrator. -/
def a11yScript (cat : String) : Option String :=
  if cat = "semantics" then some "apply-semantics-fix.js"
  else if cat = "accessible-names" then some "apply-names-fix.js"
  else if cat = "images" then some "apply-images-fix.js"
  else if cat = "forms" then some "apply-forms-fix.js"
  else if cat = "aria" then some "apply-aria-fix.js"
  else if cat = "keyboard" then some "apply-keyboard-fix.js"
  else if cat = "patterns" then some "apply-patterns-fix.js"
  else none

/-- Embedding of `applyCategoryFix`: consult the script table, then run the
subprocess; a thrown error becomes a failure triple with the raw message.
Returns the triple, the list of executed subprocess calls (empty or the one
issue), and the subprocess writes. -/
def runCategoryFix (scriptOf : String → Option String)
    (dispatch : Issue → DispatchRes) (issue : Issue) :
    JsRes × List Issue × List (String × String) :=
  match scriptOf issue.category with
  | none => (⟨false, none, some ("No fix script for category: " ++ issue.category)⟩, [], [])
  | some _ =>
    match dispatch issue with
    | ⟨Except.ok r, ws⟩ => (r, [issue], ws)
    | ⟨Except.error m, ws⟩ => (⟨false, none, some m⟩, [issue], ws)

/-- The per-issue loop of the SEO orchestrator (apply-fix.js lines 57 to
117): rendering is manual-only, then the auto-fix gate, then dry-run
synthesis, then dispatch with crash conversion. -/
def seoProcess (dispatch : Issue → DispatchRes) (dryRun : Bool) :
    List Issue → OrchOut
  | [] => {}
  | issue :: rest =>
    let o := seoProcess dispatch dryRun rest
    if issue.category = "rendering" then
      { o with manual := ⟨issue.id, issue.file, issue.problem, issue.recommendedFix,
          "Rendering fixes require manual review and cannot be safely auto-applied."⟩ :: o.manual }
    else if issue.autoFixPossible = false then
      { o with skipped := ⟨issue.id, issue.file, issue.problem,
          some "Auto-fix not available for this issue."⟩ :: o.skipped }
    else if dryRun then
      { o with fixed := ⟨issue.id, issue.file, issue.problem,
          some ("Would apply fix: " ++ issue.recommendedFix), true⟩ :: o.fixed }
    else
      let t := runCategoryFix seoScript dispatch issue
      if t.1.success then
        { o with
            fixed := ⟨issue.id, issue.file, issue.problem, t.1.action, false⟩ :: o.fixed,
            calls := t.2.1 ++ o.calls, writes := t.2.2 ++ o.writes }
      else
        { o with
            skipped := ⟨issue.id, issue.file, issue.problem, t.1.reason⟩ :: o.skipped,
            calls := t.2.1 ++ o.calls, writes := t.2.2 ++ o.writes }

/-- The per-issue loop of the accessibility orchestrator (apply-fix.js lines
55 to 103): the auto-fix gate routes to manual review, then dry-run
synthesis, then dispatch with crash conversion. -/
def a11yProcess (dispatch : Issue → DispatchRes) (dryRun : Bool) :
    List Issue → OrchOut
  | [] => {}
  | issue :: rest =>
    let o := a11yProcess dispatch dryRun rest
    if issue.autoFixPossible = false then
      { o with manual := ⟨issue.id, issue.file, issue.problem, issue.recommendedFix,
          "Auto-fix not available — manual review required."⟩ :: o.manual }
    else if dryRun then
      { o with fixed := ⟨issue.id, issue.file, issue.problem,
          some ("Would apply fix: " ++ issue.recommendedFix), true⟩ :: o.fixed }
    else
      let t := runCategoryFix a11yScript dispatch issue
      if t.1.success then
        { o with
            fixed := ⟨issue.id, issue.file, issue.problem, t.1.action, false⟩ :: o.fixed,
            calls := t.2.1 ++ o.calls, writes := t.2.2 ++ o.writes }
      else
        { o with
            skipped := ⟨issue.id, issue.file, issue.problem, t.1.reason⟩ :: o.skipped,
            calls := t.2.1 ++ o.calls, writes := t.2.2 ++ o.writes }

/-- Test of the selector regex `/^SEO-\d+$/i`. -/
def seoIdSelector (s : String) : Bool :=
  match (asciiUpper s).data with
  | 'S' :: 'E' :: 'O' :: '-' :: rest => rest ≠ [] && rest.all Char.isDigit
  | _ => false

/-- Test of the selector regex `/^A11Y-\d+$/i`. -/
def a11yIdSelector (s : String) : Bool :=
  match (asciiUpper s).data with
  | 'A' :: '1' :: '1' :: 'Y' :: '-' :: rest => rest ≠ [] && rest.all Char.isDigit
  | _ => false

/-- Selector filtering of the SEO orchestrator (lines 32 to 39). -/
def seoFilterIssues (filter : String) (issues : List Issue) : List Issue :=
  if asciiLower filter = "all" then issues
  else if seoIdSelector filter then
    issues.filter (fun i => asciiUpper i.id = asciiUpper filter)
  else issues.filter (fun i => i.category = asciiLower filter)

/-- Selector filtering of the accessibility orchestrator (lines 30 to 37). -/
def a11yFilterIssues (filter : String) (issues : List Issue) : List Issue :=
  if asciiLower filter = "all" then issues
  else if a11yIdSelector filter then
    issues.filter (fun i => asciiUpper i.id = asciiUpper filter)
  else issues.filter (fun i => i.category = asciiLower filter)

/-- Render an optional JSON string field the way JS template interpolation
renders `undefined`. -/
def optStr (o : Option String) : String :=
  match o with
  | some s => s
  | none => "undefined"

/-- Render a natural number. -/
def natStr (n : Nat) : String := Nat.repr n

/-- Markdown lines for one entry of the fixed list. -/
def fixedEntryLines (f : FixEntry) : List String :=
  ["### " ++ f.id,
   "- **File:** `" ++ f.file ++ "`",
   "- **Problem:** " ++ f.problem,
   "- **Action:** " ++ optStr f.action,
   ""]

/-- Markdown lines for one entry of the skipped list. -/
def skipEntryLines (s : SkipEntry) : List String :=
  ["### " ++ s.id,
   "- **File:** `" ++ s.file ++ "`",
   "- **Problem:** " ++ s.problem,
   "- **Reason:** " ++ optStr s.reason,
   ""]

/-- Markdown lines for one entry of the manual-review list. -/
def recEntryLines (r : RecEntry) : List String :=
  ["### " ++ r.id,
   "- **File:** `" ++ r.file ++ "`",
   "- **Problem:** " ++ r.problem,
   "- **Recommendation:** " ++ r.recommendation,
   "- **Reason:** " ++ r.reason,
   ""]

/-- Shared body of `generateFixReport` of both orchestrators, parameterised
by title and footer. -/
def renderFixReport (title footer now filter : String) (fixed : List FixEntry)
    (skipped : List SkipEntry) (recs : List RecEntry) : String :=
  joinLines <|
    ["# " ++ title, "",
     "**Generated:** " ++ now,
     "**Filter:** " ++ filter, "",
     "## Summary", "",
     "| Status | Count |",
     "|--------|-------|",
     "| Fixed | " ++ natStr fixed.length ++ " |",
     "| Skipped | " ++ natStr skipped.length ++ " |",
     "| Manual Review | " ++ natStr recs.length ++ " |",
     "",
     "## Fixed Issues", ""] ++
    (if fixed.length = 0 then ["No issues were fixed."]
     else fixed.flatMap fixedEntryLines) ++
    ["",
     "## Skipped Issues", ""] ++
    (if skipped.length = 0 then ["No issues were skipped."]
     else skipped.flatMap skipEntryLines) ++
    ["",
     "## Manual Review Required", ""] ++
    (if recs.length = 0 then ["No issues require manual review."]
     else recs.flatMap recEntryLines) ++
    ["---", "", footer]

/-- Embedding of the SEO `applyFixes` given a loaded report: filtering, the
empty-selection early return, the per-issue loop, and the fix-report write
performed only outside dry-run. -/
def seoApplyFixes (report : Report) (filter : String) (dryRun : Bool)
    (dispatch : Issue → DispatchRes) (now : String) : OrchOut :=
  let targeted := seoFilterIssues filter report.issues
  if targeted.length = 0 then {}
  else
    let o := seoProcess dispatch dryRun targeted
    if dryRun then o
    else
      { o with writes := o.writes ++
          [("fix-report.md",
            renderFixReport "SEO Fix Report" "*Generated by universal-frontend-seo-plugin*"
              now filter o.fixed o.skipped o.manual)] }

/-- Embedding of the accessibility `applyFixes` given a loaded report. -/
def a11yApplyFixes (report : Report) (filter : String) (dryRun : Bool)
    (dispatch : Issue → DispatchRes) (now : String) : OrchOut :=
  let targeted := a11yFilterIssues filter report.issues
  if targeted.length = 0 then {}
  else
    let o := a11yProcess dispatch dryRun targeted
    if dryRun then o
    else
      { o with writes := o.writes ++
          [("a11y-fix-report.md",
            renderFixReport "Accessibility Fix Report" "*Generated by accessibility-plugin*"
              now filter o.fixed o.skipped o.manual)] }

/-! ## Concrete fixtures used by the individual claim checks -/

/-- A dispatch oracle that reports abnormal termination for every issue; used
where the oracle must not matter or must fail. -/
def oracleErr : Issue → DispatchRes := fun _ => ⟨Except.error "forced failure", []⟩

/-- High-severity finding in the `title` category. -/
def c1HighIssue : Issue :=
  { severity := "high", category := "title", file := "a.html", line := 3,
    problem := "short title" }

/-- Critical-severity finding in the `title` category. -/
def c1CritIssue : Issue :=
  { severity := "critical", category := "title", file := "a.html", line := 9,
    problem := "missing title" }

/-- The decorative-image Finding used to exercise the image fix twice. -/
def c2Issue : Issue :=
  { severity := "medium", category := "images", file := "a.html", line := 1,
    problem := "Likely decorative <img> missing alt=\"\" — should have empty alt to be ignored by screen readers",
    recommendedFix := "Add alt=\"\" to mark this image as decorative.",
    autoFixPossible := true }

/-- File content whose image tag has no closing `>` on its own line. -/
def c2Content : String := "<img src=\"x\"\n>"

/-- The same file after the first (successful) fix application. -/
def c2ContentAfterFirst : String := "<img alt=\"\" src=\"x\"\n>"

/-- A rendering-category finding marked auto-fixable. -/
def c4RendIssue : Issue :=
  { id := "SEO-001", severity := "high", category := "rendering", file := "p.js",
    problem := "client-side rendering", recommendedFix := "use SSR",
    autoFixPossible := true }

/-- An auto-fixable images-category finding (dry-run witness fixture). -/
def c4AutoIssue : Issue :=
  { id := "SEO-002", severity := "critical", category := "images", file := "q.html",
    problem := "<img> tag missing alt attribute",
    recommendedFix := "Add a descriptive alt attribute.", autoFixPossible := true }

/-- A dynamic-category accessibility finding marked auto-fixable. -/
def c6DynIssue : Issue :=
  { id := "A11Y-001", severity := "high", category := "dynamic", file := "t.tsx",
    problem := "toast has no live region", recommendedFix := "add aria-live",
    autoFixPossible := true }

/-- An accessibility finding with no automatic remedy. -/
def c7NoFixIssue : Issue :=
  { id := "A11Y-002", severity := "high", category := "images", file := "i.tsx",
    problem := "Element with role=\"img\" has no accessible name",
    recommendedFix := "Add aria-label=\"description\"", autoFixPossible := false }

/-- The semantics finding retagged by `fixDivToButton` in the concrete
counterexample run. -/
def c8Issue : Issue :=
  { id := "A11Y-003", severity := "critical", category := "semantics",
    file := "b.html", line := 1,
    problem := "<div> with onClick handler used as interactive control",
    autoFixPossible := true }

/-- Content whose target line carries an unrelated closing `</div>` before
the opening tag, while the structurally matching closing tag sits on the
next line. -/
def c8Content : String := "</div><div onClick=\"f\">x\n</div>"

/-- Content of the same file after the handler run. -/
def c8ContentAfter : String := "</button><button type=\"button\" onClick=\"f\">x\n</div>"

/-- The Finding emitted by the scanner for `<img src="icon.png">`. -/
def c9Finding : Issue :=
  { severity := "medium", category := "images", file := "home.html", line := 1,
    problem := "Likely decorative <img> missing alt=\"\" — should have empty alt to be ignored by screen readers",
    impact := "Without alt=\"\", screen readers may announce the filename, which is confusing for decorative images.",
    recommendedFix := "Add alt=\"\" to mark this image as decorative.",
    autoFixPossible := true, wcagCriteria := "1.1.1", wcagLevel := "A" }

/-- Content of the C9 scenario file. -/
def c9Content : String := "<img src=\"icon.png\">"

/-- Batch fixture: an auto-fixable images finding. -/
def c5IssueA : Issue :=
  { id := "A11Y-101", severity := "critical", category := "images", file := "a.tsx",
    problem := "<img> tag missing alt attribute", recommendedFix := "Add alt",
    autoFixPossible := true }

/-- Batch fixture: an auto-fixable forms finding whose handler is forced to
fail abnormally. -/
def c5IssueB : Issue :=
  { id := "A11Y-102", severity := "high", category := "forms", file := "b.tsx",
    problem := "Input with no label", recommendedFix := "Add aria-label",
    autoFixPossible := true }

/-- Batch fixture: a finding with no automatic remedy. -/
def c5IssueC : Issue :=
  { id := "A11Y-103", severity := "high", category := "images", file := "c.tsx",
    problem := "SVG missing accessible name", recommendedFix := "Add title",
    autoFixPossible := false }

/-- Oracle that times out on the second batch issue and succeeds on the
rest. -/
def c5Oracle : Issue → DispatchRes := fun i =>
  if i.id = "A11Y-102" then ⟨Except.error "spawnSync /bin/sh ETIMEDOUT", []⟩
  else ⟨Except.ok ⟨true, some "done", none⟩, []⟩

/-- Content with an opening `div` but no closing tag anywhere at or after
the target line. -/
def c8NoCloseContent : String := "<div onClick=\"f\">x"

/-! ## Orchestrator loop lemmas -/

theorem seoProcess_dry_effects (d : Issue → DispatchRes) (l : List Issue) :
    (seoProcess d true l).writes = [] ∧ (seoProcess d true l).calls = [] := by
  induction l with
  | nil => exact ⟨rfl, rfl⟩
  | cons issue rest ih =>
    simp only [seoProcess]
    split
    · exact ih
    · split
      · exact ih
      · simpa using ih

theorem a11yProcess_dry_effects (d : Issue → DispatchRes) (l : List Issue) :
    (a11yProcess d true l).writes = [] ∧ (a11yProcess d true l).calls = [] := by
  induction l with
  | nil => exact ⟨rfl, rfl⟩
  | cons issue rest ih =>
    simp only [a11yProcess]
    split
    · exact ih
    · simpa using ih

theorem seoProcess_fixed_mono (d : Issue → DispatchRes) (dr : Bool) (issue : Issue)
    (rest : List Issue) (e : FixEntry) (h : e ∈ (seoProcess d dr rest).fixed) :
    e ∈ (seoProcess d dr (issue :: rest)).fixed := by
  simp only [seoProcess]
  split
  · exact h
  · split
    · exact h
    · split
      · exact List.mem_cons_of_mem _ h
      · split
        · exact List.mem_cons_of_mem _ h
        · exact h

theorem seoProcess_skipped_mono (d : Issue → DispatchRes) (dr : Bool) (issue : Issue)
    (rest : List Issue) (e : SkipEntry) (h : e ∈ (seoProcess d dr rest).skipped) :
    e ∈ (seoProcess d dr (issue :: rest)).skipped := by
  simp only [seoProcess]
  split
  · exact h
  · split
    · exact List.mem_cons_of_mem _ h
    · split
      · exact h
      · split
        · exact h
        · exact List.mem_cons_of_mem _ h

theorem seoProcess_manual_mono (d : Issue → DispatchRes) (dr : Bool) (issue : Issue)
    (rest : List Issue) (e : RecEntry) (h : e ∈ (seoProcess d dr rest).manual) :
    e ∈ (seoProcess d dr (issue :: rest)).manual := by
  simp only [seoProcess]
  split
  · exact List.mem_cons_of_mem _ h
  · split
    · exact h
    · split
      · exact h
      · split
        · exact h
        · exact h

theorem a11yProcess_fixed_mono (d : Issue → DispatchRes) (dr : Bool) (issue : Issue)
    (rest : List Issue) (e : FixEntry) (h : e ∈ (a11yProcess d dr rest).fixed) :
    e ∈ (a11yProcess d dr (issue :: rest)).fixed := by
  simp only [a11yProcess]
  split
  · exact h
  · split
    · exact List.mem_cons_of_mem _ h
    · split
      · exact List.mem_cons_of_mem _ h
      · exact h

theorem a11yProcess_skipped_mono (d : Issue → DispatchRes) (dr : Bool) (issue : Issue)
    (rest : List Issue) (e : SkipEntry) (h : e ∈ (a11yProcess d dr rest).skipped) :
    e ∈ (a11yProcess d dr (issue :: rest)).skipped := by
  simp only [a11yProcess]
  split
  · exact h
  · split
    · exact h
    · split
      · exact h
      · exact List.mem_cons_of_mem _ h

theorem a11yProcess_manual_mono (d : Issue → DispatchRes) (dr : Bool) (issue : Issue)
    (rest : List Issue) (e : RecEntry) (h : e ∈ (a11yProcess d dr rest).manual) :
    e ∈ (a11yProcess d dr (issue :: rest)).manual := by
  simp only [a11yProcess]
  split
  · exact List.mem_cons_of_mem _ h
  · split
    · exact h
    · split
      · exact h
      · exact h

theorem seoProcess_rendering_manual (d : Issue → DispatchRes) (dr : Bool)
    (l : List Issue) :
    ∀ i ∈ l, i.category = "rendering" →
      (⟨i.id, i.file, i.problem, i.recommendedFix,
        "Rendering fixes require manual review and cannot be safely auto-applied."⟩ : RecEntry)
        ∈ (seoProcess d dr l).manual := by
  induction l with
  | nil => intro i hi; exact absurd hi (List.not_mem_nil i)
  | cons issue rest ih =>
    intro i hi hcat
    rcases List.mem_cons.mp hi with h | h
    · subst h
      simp only [seoProcess]
      rw [if_pos hcat]
      exact List.mem_cons_self _ _
    · exact seoProcess_manual_mono d dr issue rest _ (ih i h hcat)

theorem seoProcess_noauto_skipped (d : Issue → DispatchRes) (dr : Bool)
    (l : List Issue) :
    ∀ i ∈ l, i.category ≠ "rendering" → i.autoFixPossible = false →
      (⟨i.id, i.file, i.problem,
        some "Auto-fix not available for this issue."⟩ : SkipEntry)
        ∈ (seoProcess d dr l).skipped := by
  induction l with
  | nil => intro i hi; exact absurd hi (List.not_mem_nil i)
  | cons issue rest ih =>
    intro i hi hcat hauto
    rcases List.mem_cons.mp hi with h | h
    · subst h
      simp only [seoProcess]
      rw [if_neg hcat, if_pos hauto]
      exact List.mem_cons_self _ _
    · exact seoProcess_skipped_mono d dr issue rest _ (ih i h hcat hauto)

theorem seoProcess_dry_fixed (d : Issue → DispatchRes) (l : List Issue) :
    ∀ i ∈ l, i.category ≠ "rendering" → i.autoFixPossible = true →
      (⟨i.id, i.file, i.problem,
        some ("Would apply fix: " ++ i.recommendedFix), true⟩ : FixEntry)
        ∈ (seoProcess d true l).fixed := by
  induction l with
  | nil => intro i hi; exact absurd hi (List.not_mem_nil i)
  | cons issue rest ih =>
    intro i hi hcat hauto
    rcases List.mem_cons.mp hi with h | h
    · subst h
      simp only [seoProcess]
      rw [if_neg hcat, if_neg (by simp [hauto])]
      simp
    · exact seoProcess_fixed_mono d true issue rest _ (ih i h hcat hauto)

theorem a11yProcess_noauto_manual (d : Issue → DispatchRes) (dr : Bool)
    (l : List Issue) :
    ∀ i ∈ l, i.autoFixPossible = false →
      (⟨i.id, i.file, i.problem, i.recommendedFix,
        "Auto-fix not available — manual review required."⟩ : RecEntry)
        ∈ (a11yProcess d dr l).manual := by
  induction l with
  | nil => intro i hi; exact absurd hi (List.not_mem_nil i)
  | cons issue rest ih =>
    intro i hi hauto
    rcases List.mem_cons.mp hi with h | h
    · subst h
      simp only [a11yProcess]
      rw [if_pos hauto]
      exact List.mem_cons_self _ _
    · exact a11yProcess_manual_mono d dr issue rest _ (ih i h hauto)

theorem a11yProcess_dry_fixed (d : Issue → DispatchRes) (l : List Issue) :
    ∀ i ∈ l, i.autoFixPossible = true →
      (⟨i.id, i.file, i.problem,
        some ("Would apply fix: " ++ i.recommendedFix), true⟩ : FixEntry)
        ∈ (a11yProcess d true l).fixed := by
  induction l with
  | nil => intro i hi; exact absurd hi (List.not_mem_nil i)
  | cons issue rest ih =>
    intro i hi hauto
    rcases List.mem_cons.mp hi with h | h
    · subst h
      simp only [a11yProcess]
      rw [if_neg (by simp [hauto])]
      simp
    · exact a11yProcess_fixed_mono d true issue rest _ (ih i h hauto)

theorem a11yProcess_noscript_skipped (d : Issue → DispatchRes) (l : List Issue) :
    ∀ i ∈ l, i.autoFixPossible = true → a11yScript i.category = none →
      (⟨i.id, i.file, i.problem,
        some ("No fix script for category: " ++ i.category)⟩ : SkipEntry)
        ∈ (a11yProcess d false l).skipped := by
  induction l with
  | nil => intro i hi; exact absurd hi (List.not_mem_nil i)
  | cons issue rest ih =>
    intro i hi hauto hscript
    rcases List.mem_cons.mp hi with h | h
    · subst h
      simp only [a11yProcess, runCategoryFix, hscript]
      rw [if_neg (by simp [hauto]), if_neg (by simp)]
      exact List.mem_cons_self _ _
    · exact a11yProcess_skipped_mono d false issue rest _ (ih i h hauto hscript)

theorem a11yProcess_crash_skipped (d : Issue → DispatchRes) (l : List Issue) :
    ∀ i ∈ l, i.autoFixPossible = true → (a11yScript i.category).isSome = true →
      ∀ m ws, d i = ⟨Except.error m, ws⟩ →
        (⟨i.id, i.file, i.problem, some m⟩ : SkipEntry)
          ∈ (a11yProcess d false l).skipped := by
  induction l with
  | nil => intro i hi; exact absurd hi (List.not_mem_nil i)
  | cons issue rest ih =>
    intro i hi hauto hscript m ws hd
    rcases List.mem_cons.mp hi with h | h
    · subst h
      obtain ⟨s, hs⟩ := Option.isSome_iff_exists.mp hscript
      simp only [a11yProcess, runCategoryFix, hs, hd]
      rw [if_neg (by simp [hauto]), if_neg (by simp)]
      exact List.mem_cons_self _ _
    · exact a11yProcess_skipped_mono d false issue rest _ (ih i h hauto hscript m ws hd)

theorem seoProcess_crash_skipped (d : Issue → DispatchRes) (l : List Issue) :
    ∀ i ∈ l, i.category ≠ "rendering" → i.autoFixPossible = true →
      (seoScript i.category).isSome = true →
      ∀ m ws, d i = ⟨Except.error m, ws⟩ →
        (⟨i.id, i.file, i.problem, some m⟩ : SkipEntry)
          ∈ (seoProcess d false l).skipped := by
  induction l with
  | nil => intro i hi; exact absurd hi (List.not_mem_nil i)
  | cons issue rest ih =>
    intro i hi hcat hauto hscript m ws hd
    rcases List.mem_cons.mp hi with h | h
    · subst h
      obtain ⟨s, hs⟩ := Option.isSome_iff_exists.mp hscript
      simp only [seoProcess, runCategoryFix, hs, hd]
      rw [if_neg hcat, if_neg (by simp [hauto]), if_neg (by simp), if_neg (by simp)]
      exact List.mem_cons_self _ _
    · exact seoProcess_skipped_mono d false issue rest _
        (ih i h hcat hauto hscript m ws hd)

theorem runCategoryFix_calls (so : String → Option String)
    (d : Issue → DispatchRes) (i : Issue) :
    ∀ j ∈ (runCategoryFix so d i).2.1, j = i ∧ (so i.category).isSome = true := by
  intro j hj
  unfold runCategoryFix at hj
  split at hj
  · simp at hj
  · next s hs =>
    split at hj
    · simp at hj
      exact ⟨hj, by simp [hs]⟩
    · simp at hj
      exact ⟨hj, by simp [hs]⟩

theorem seoProcess_calls (d : Issue → DispatchRes) (dr : Bool) (l : List Issue) :
    ∀ j ∈ (seoProcess d dr l).calls,
      j ∈ l ∧ j.category ≠ "rendering" ∧ j.autoFixPossible = true ∧
        (seoScript j.category).isSome = true := by
  induction l with
  | nil => intro j hj; exact absurd hj (List.not_mem_nil j)
  | cons issue rest ih =>
    intro j hj
    have step : ∀ h : j ∈ (seoProcess d dr rest).calls,
        j ∈ issue :: rest ∧ j.category ≠ "rendering" ∧ j.autoFixPossible = true ∧
          (seoScript j.category).isSome = true := by
      intro h
      obtain ⟨h1, h2, h3, h4⟩ := ih j h
      exact ⟨List.mem_cons_of_mem _ h1, h2, h3, h4⟩
    simp only [seoProcess] at hj
    split at hj
    · exact step hj
    · next hcat =>
      split at hj
      · exact step hj
      · next hauto =>
        split at hj
        · exact step hj
        · split at hj
          all_goals
            rcases List.mem_append.mp hj with h | h
            · obtain ⟨he, hsome⟩ := runCategoryFix_calls seoScript d issue j h
              subst he
              exact ⟨List.mem_cons_self _ _, hcat, by simpa using hauto, hsome⟩
            · exact step h

theorem a11yProcess_calls (d : Issue → DispatchRes) (dr : Bool) (l : List Issue) :
    ∀ j ∈ (a11yProcess d dr l).calls,
      j ∈ l ∧ j.autoFixPossible = true ∧ (a11yScript j.category).isSome = true := by
  induction l with
  | nil => intro j hj; exact absurd hj (List.not_mem_nil j)
  | cons issue rest ih =>
    intro j hj
    have step : ∀ h : j ∈ (a11yProcess d dr rest).calls,
        j ∈ issue :: rest ∧ j.autoFixPossible = true ∧
          (a11yScript j.category).isSome = true := by
      intro h
      obtain ⟨h1, h2, h3⟩ := ih j h
      exact ⟨List.mem_cons_of_mem _ h1, h2, h3⟩
    simp only [a11yProcess] at hj
    split at hj
    · exact step hj
    · next hauto =>
      split at hj
      · exact step hj
      · split at hj
        all_goals
          rcases List.mem_append.mp hj with h | h
          · obtain ⟨he, hsome⟩ := runCategoryFix_calls a11yScript d issue j h
            subst he
            exact ⟨List.mem_cons_self _ _, by simpa using hauto, hsome⟩
          · exact step h

theorem perm_step_middle {α : Type} (x : α) (F S M L : List α)
    (ih : (F ++ (S ++ M)).Perm L) :
    (F ++ (S ++ (x :: M))).Perm (x :: L) := by
  have h1 : F ++ (S ++ (x :: M)) = (F ++ S) ++ (x :: M) := by
    rw [List.append_assoc]
  have h2 : ((F ++ S) ++ (x :: M)).Perm (x :: ((F ++ S) ++ M)) := List.perm_middle
  rw [h1]
  refine h2.trans ?_
  rw [List.append_assoc]
  exact ih.cons x

theorem perm_step_left {α : Type} (x : α) (F S M L : List α)
    (ih : (F ++ (S ++ M)).Perm L) :
    (F ++ ((x :: S) ++ M)).Perm (x :: L) := by
  have h1 : F ++ ((x :: S) ++ M) = F ++ (x :: (S ++ M)) := by
    rw [List.cons_append]
  have h2 : (F ++ (x :: (S ++ M))).Perm (x :: (F ++ (S ++ M))) := List.perm_middle
  rw [h1]
  exact h2.trans (ih.cons x)

theorem a11yProcess_ids_perm (d : Issue → DispatchRes) (l : List Issue) :
    ((a11yProcess d false l).fixed.map FixEntry.id ++
     ((a11yProcess d false l).skipped.map SkipEntry.id ++
      (a11yProcess d false l).manual.map RecEntry.id)).Perm
      (l.map Issue.id) := by
  induction l with
  | nil => exact List.Perm.refl _
  | cons issue rest ih =>
    simp only [a11yProcess, List.map_cons]
    split
    · exact perm_step_middle issue.id _ _ _ _ ih
    · split
      · next h => simp at h
      · split
        · exact ih.cons issue.id
        · exact perm_step_left issue.id _ _ _ _ ih

theorem seoProcess_ids_perm (d : Issue → DispatchRes) (l : List Issue) :
    ((seoProcess d false l).fixed.map FixEntry.id ++
     ((seoProcess d false l).skipped.map SkipEntry.id ++
      (seoProcess d false l).manual.map RecEntry.id)).Perm
      (l.map Issue.id) := by
  induction l with
  | nil => exact List.Perm.refl _
  | cons issue rest ih =>
    simp only [seoProcess, List.map_cons]
    split
    · exact perm_step_middle issue.id _ _ _ _ ih
    · split
      · exact perm_step_left issue.id _ _ _ _ ih
      · split
        · next h => simp at h
        · split
          · exact ih.cons issue.id
          · exact perm_step_left issue.id _ _ _ _ ih

theorem seoApplyFixes_dry_effects (report : Report) (filter now : String)
    (d : Issue → DispatchRes) :
    (seoApplyFixes report filter true d now).writes = [] ∧
    (seoApplyFixes report filter true d now).calls = [] := by
  simp only [seoApplyFixes]
  split
  · exact ⟨rfl, rfl⟩
  · simpa using seoProcess_dry_effects d (seoFilterIssues filter report.issues)

theorem a11yApplyFixes_dry_effects (report : Report) (filter now : String)
    (d : Issue → DispatchRes) :
    (a11yApplyFixes report filter true d now).writes = [] ∧
    (a11yApplyFixes report filter true d now).calls = [] := by
  simp only [a11yApplyFixes]
  split
  · exact ⟨rfl, rfl⟩
  · simpa using a11yProcess_dry_effects d (a11yFilterIssues filter report.issues)

theorem seoApplyFixes_buckets (report : Report) (filter : String) (dryRun : Bool)
    (d : Issue → DispatchRes) (now : String)
    (hne : seoFilterIssues filter report.issues ≠ []) :
    (seoApplyFixes report filter dryRun d now).fixed =
      (seoProcess d dryRun (seoFilterIssues filter report.issues)).fixed ∧
    (seoApplyFixes report filter dryRun d now).skipped =
      (seoProcess d dryRun (seoFilterIssues filter report.issues)).skipped ∧
    (seoApplyFixes report filter dryRun d now).manual =
      (seoProcess d dryRun (seoFilterIssues filter report.issues)).manual ∧
    (seoApplyFixes report filter dryRun d now).calls =
      (seoProcess d dryRun (seoFilterIssues filter report.issues)).calls := by
  simp only [seoApplyFixes]
  rw [if_neg (by simpa [List.length_eq_zero] using hne)]
  split
  · exact ⟨rfl, rfl, rfl, rfl⟩
  · exact ⟨rfl, rfl, rfl, rfl⟩

theorem a11yApplyFixes_buckets (report : Report) (filter : String) (dryRun : Bool)
    (d : Issue → DispatchRes) (now : String)
    (hne : a11yFilterIssues filter report.issues ≠ []) :
    (a11yApplyFixes report filter dryRun d now).fixed =
      (a11yProcess d dryRun (a11yFilterIssues filter report.issues)).fixed ∧
    (a11yApplyFixes report filter dryRun d now).skipped =
      (a11yProcess d dryRun (a11yFilterIssues filter report.issues)).skipped ∧
    (a11yApplyFixes report filter dryRun d now).manual =
      (a11yProcess d dryRun (a11yFilterIssues filter report.issues)).manual ∧
    (a11yApplyFixes report filter dryRun d now).calls =
      (a11yProcess d dryRun (a11yFilterIssues filter report.issues)).calls := by
  simp only [a11yApplyFixes]
  rw [if_neg (by simpa [List.length_eq_zero] using hne)]
  split
  · exact ⟨rfl, rfl, rfl, rfl⟩
  · exact ⟨rfl, rfl, rfl, rfl⟩

theorem seoApplyFixes_empty (report : Report) (filter : String) (dryRun : Bool)
    (d : Issue → DispatchRes) (now : String)
    (h : seoFilterIssues filter report.issues = []) :
    seoApplyFixes report filter dryRun d now = ({} : OrchOut) := by
  simp only [seoApplyFixes, h]
  rfl

theorem a11yApplyFixes_empty (report : Report) (filter : String) (dryRun : Bool)
    (d : Issue → DispatchRes) (now : String)
    (h : a11yFilterIssues filter report.issues = []) :
    a11yApplyFixes report filter dryRun d now = ({} : OrchOut) := by
  simp only [a11yApplyFixes, h]
  rfl

theorem seoApplyFixes_report_write (report : Report) (filter : String)
    (d : Issue → DispatchRes) (now : String)
    (hne : seoFilterIssues filter report.issues ≠ []) :
    (seoApplyFixes report filter false d now).writes =
      (seoProcess d false (seoFilterIssues filter report.issues)).writes ++
      [("fix-report.md",
        renderFixReport "SEO Fix Report" "*Generated by universal-frontend-seo-plugin*"
          now filter
          (seoProcess d false (seoFilterIssues filter report.issues)).fixed
          (seoProcess d false (seoFilterIssues filter report.issues)).skipped
          (seoProcess d false (seoFilterIssues filter report.issues)).manual)] := by
  simp only [seoApplyFixes]
  rw [if_neg (by simpa [List.length_eq_zero] using hne)]
  rfl

theorem a11yApplyFixes_report_write (report : Report) (filter : String)
    (d : Issue → DispatchRes) (now : String)
    (hne : a11yFilterIssues filter report.issues ≠ []) :
    (a11yApplyFixes report filter false d now).writes =
      (a11yProcess d false (a11yFilterIssues filter report.issues)).writes ++
      [("a11y-fix-report.md",
        renderFixReport "Accessibility Fix Report" "*Generated by accessibility-plugin*"
          now filter
          (a11yProcess d false (a11yFilterIssues filter report.issues)).fixed
          (a11yProcess d false (a11yFilterIssues filter report.issues)).skipped
          (a11yProcess d false (a11yFilterIssues filter report.issues)).manual)] := by
  simp only [a11yApplyFixes]
  rw [if_neg (by simpa [List.length_eq_zero] using hne)]
  rfl

/-! ## Substring occurrence lemmas -/

theorem str_data_append (a b : String) : (a ++ b).data = a.data ++ b.data := by
  cases a
  cases b
  rfl

theorem isPrefixOf_self_append (p t : List Char) :
    List.isPrefixOf p (p ++ t) = true := by
  induction p with
  | nil => simp [List.isPrefixOf]
  | cons c cs ih => simp [List.isPrefixOf, ih]

theorem isPrefixOf_decomp {p l : List Char} (h : List.isPrefixOf p l = true) :
    ∃ t, l = p ++ t := by
  induction p generalizing l with
  | nil => exact ⟨l, rfl⟩
  | cons c cs ih =>
    cases l with
    | nil => simp [List.isPrefixOf] at h
    | cons b bs =>
      simp only [List.isPrefixOf, Bool.and_eq_true, beq_iff_eq] at h
      obtain ⟨hcb, hrest⟩ := h
      obtain ⟨t, ht⟩ := ih hrest
      exact ⟨t, by rw [hcb, ht]; rfl⟩

theorem subIdxAux_isSome_of_parts (pre pat suf : List Char) :
    ∀ i : Nat, (subIdxAux pat i (pre ++ (pat ++ suf))).isSome = true := by
  induction pre with
  | nil =>
    intro i
    cases pat with
    | nil =>
      cases suf with
      | nil => rfl
      | cons c cs => simp [subIdxAux, List.isPrefixOf]
    | cons p ps =>
      simp [subIdxAux, isPrefixOf_self_append]
  | cons c cs ih =>
    intro i
    simp only [List.cons_append, subIdxAux]
    split
    · rfl
    · exact ih (i + 1)

theorem subIdxAux_decomp {pat : List Char} :
    ∀ {l : List Char} {i : Nat}, (subIdxAux pat i l).isSome = true →
      ∃ pre suf, l = pre ++ (pat ++ suf) := by
  intro l
  induction l with
  | nil =>
    intro i h
    simp only [subIdxAux] at h
    split at h
    · next hp =>
      obtain ⟨t, ht⟩ := isPrefixOf_decomp hp
      exact ⟨[], t, ht⟩
    · simp at h
  | cons c cs ih =>
    intro i h
    simp only [subIdxAux] at h
    split at h
    · next hp =>
      obtain ⟨t, ht⟩ := isPrefixOf_decomp hp
      exact ⟨[], t, ht⟩
    · obtain ⟨pre, suf, hps⟩ := ih h
      exact ⟨c :: pre, suf, by rw [hps]; rfl⟩

theorem containsSub_parts (s pat : String) (pre suf : List Char)
    (h : s.data = pre ++ (pat.data ++ suf)) : containsSub s pat = true := by
  unfold containsSub subIdx
  rw [h]
  exact subIdxAux_isSome_of_parts pre pat.data suf 0

theorem containsSub_decomp {s pat : String} (h : containsSub s pat = true) :
    ∃ pre suf, s.data = pre ++ (pat.data ++ suf) := by
  unfold containsSub subIdx at h
  exact subIdxAux_decomp h

theorem containsSub_append_left (a b pat : String)
    (h : containsSub a pat = true) : containsSub (a ++ b) pat = true := by
  obtain ⟨pre, suf, hps⟩ := containsSub_decomp h
  refine containsSub_parts _ _ pre (suf ++ b.data) ?_
  rw [str_data_append, hps]
  simp [List.append_assoc]

theorem containsSub_append_right (a b pat : String)
    (h : containsSub b pat = true) : containsSub (a ++ b) pat = true := by
  obtain ⟨pre, suf, hps⟩ := containsSub_decomp h
  refine containsSub_parts _ _ (a.data ++ pre) suf ?_
  rw [str_data_append, hps]
  simp [List.append_assoc]

theorem replaceFirstSub_contains (pat repl s : String)
    (h : containsSub s pat = true) :
    containsSub (replaceFirstSub pat repl s) repl = true := by
  unfold containsSub at h
  obtain ⟨i, hi⟩ := Option.isSome_iff_exists.mp h
  unfold replaceFirstSub
  rw [hi]
  refine containsSub_parts _ _ (strTake s i).data (strDrop s (i + pat.length)).data ?_
  rw [str_data_append, str_data_append, List.append_assoc]

theorem joinLines_contains_of_mem (ls : List String) (l pat : String)
    (hmem : l ∈ ls) (h : containsSub l pat = true) :
    containsSub (joinLines ls) pat = true := by
  induction ls with
  | nil => exact absurd hmem (List.not_mem_nil l)
  | cons a rest ih =>
    cases rest with
    | nil =>
      rcases List.mem_cons.mp hmem with he | he
      · subst he
        exact h
      · exact absurd he (List.not_mem_nil l)
    | cons r rs =>
      rcases List.mem_cons.mp hmem with he | he
      · subst he
        exact containsSub_append_left _ _ _ (containsSub_append_left _ _ _ h)
      · exact containsSub_append_right _ _ _ (ih he)

theorem replaceCloseInLines_none_of_all (pat repl : String) (ls : List String)
    (h : ∀ l ∈ ls, containsSub l pat = false) :
    replaceCloseInLines pat repl ls = none := by
  induction ls with
  | nil => rfl
  | cons a rest ih =>
    simp only [replaceCloseInLines]
    rw [if_neg (by simp [h a (List.mem_cons_self a rest)])]
    rw [ih (fun l hl => h l (List.mem_cons_of_mem a hl))]
    rfl

theorem replaceCloseInLines_some_contains (pat repl : String) :
    ∀ (ls ls' : List String), replaceCloseInLines pat repl ls = some ls' →
      ∃ l ∈ ls', containsSub l repl = true := by
  intro ls
  induction ls with
  | nil => intro ls' h; exact absurd h (by simp [replaceCloseInLines])
  | cons a rest ih =>
    intro ls' h
    simp only [replaceCloseInLines] at h
    split at h
    · next hc =>
      obtain rfl : replaceFirstSub pat repl a :: rest = ls' :=
        Option.some.inj h
      exact ⟨replaceFirstSub pat repl a, List.mem_cons_self _ _,
        replaceFirstSub_contains pat repl a hc⟩
    · rcases ho : replaceCloseInLines pat repl rest with _ | r
      · rw [ho] at h
        simp at h
      · rw [ho] at h
        obtain rfl : a :: r = ls' := by
          simpa using h
        obtain ⟨l, hl, hcl⟩ := ih r ho
        exact ⟨l, List.mem_cons_of_mem a hl, hcl⟩

theorem mem_set_self {α : Type} : ∀ (l : List α) (n : Nat) (a : α),
    n < l.length → a ∈ l.set n a := by
  intro l
  induction l with
  | nil => intro n a h; simp at h
  | cons hd tl ih =>
    intro n a h
    cases n with
    | zero => exact List.mem_cons_self _ _
    | succ k =>
      simp only [List.set]
      exact List.mem_cons_of_mem hd (ih k a (by simpa using h))

theorem drop_set_succ {α : Type} : ∀ (l : List α) (k : Nat) (x : α),
    (l.set k x).drop (k + 1) = l.drop (k + 1) := by
  intro l
  induction l with
  | nil => intro k x; rfl
  | cons hd tl ih =>
    intro k x
    cases k with
    | zero => rfl
    | succ j => simpa using ih j x

theorem fixImgAlt_shape (issue : Issue) (fp content : String) (lines : List String)
    (li : Nat) (dec : Bool) :
    ((fixImgAlt issue fp content lines li dec).success = false ∧
      (fixImgAlt issue fp content lines li dec).writes = []) ∨
    ((fixImgAlt issue fp content lines li dec).success = true ∧
      ∃ nc, (fixImgAlt issue fp content lines li dec).writes =
        [(fp ++ ".bak", content), (fp, nc)]) := by
  simp only [fixImgAlt]
  split
  · exact Or.inl ⟨rfl, rfl⟩
  · split
    · exact Or.inl ⟨rfl, rfl⟩
    · exact Or.inr ⟨rfl, _, rfl⟩

theorem fixDivToButton_shape (issue : Issue) (fp content : String)
    (lines : List String) (liI : Int) :
    ((fixDivToButton issue fp content lines liI).success = false ∧
      (fixDivToButton issue fp content lines liI).writes = []) ∨
    ((fixDivToButton issue fp content lines liI).success = true ∧
      ∃ nc, (fixDivToButton issue fp content lines liI).writes =
        [(fp ++ ".bak", content), (fp, nc)]) := by
  simp only [fixDivToButton]
  split
  · exact Or.inl ⟨rfl, rfl⟩
  · split
    · exact Or.inl ⟨rfl, rfl⟩
    · split
      · exact Or.inl ⟨rfl, rfl⟩
      · split
        · exact Or.inl ⟨rfl, rfl⟩
        · split
          · exact Or.inl ⟨rfl, rfl⟩
          · exact Or.inr ⟨rfl, _, rfl⟩

theorem addTabindex_shape (issue : Issue) (fp content : String)
    (lines : List String) (liI : Int) :
    ((addTabindex issue fp content lines liI).success = false ∧
      (addTabindex issue fp content lines liI).writes = []) ∨
    ((addTabindex issue fp content lines liI).success = true ∧
      ∃ nc, (addTabindex issue fp content lines liI).writes =
        [(fp ++ ".bak", content), (fp, nc)]) := by
  simp only [addTabindex]
  split
  · exact Or.inl ⟨rfl, rfl⟩
  · split
    · exact Or.inl ⟨rfl, rfl⟩
    · split
      · exact Or.inl ⟨rfl, rfl⟩
      · exact Or.inr ⟨rfl, _, rfl⟩

/-! ## Claim theorems -/

/-- C1 (code bug): the Aggregator does not sort by the declared severity
order.  The comparator computes `SEVERITY_ORDER[severity] || 3`, and since
the stored rank of `critical` is `0` — falsy in JavaScript — a critical
finding is ranked `3`, the same as `low`.  On two same-category findings in
input order high-then-critical, the sorted Report keeps the high finding
first and assigns it `SEO-001`, while the claim (and the code's own
`SEVERITY_ORDER` table) requires the critical finding first.  The id
assignment itself is sequential and contiguous. -/
theorem c1_sort_order_on_critical_vs_high :
    sevRankJs "critical" = 3 ∧ sevRankJs "low" = 3 ∧
    (seoSortAndAssign [c1HighIssue, c1CritIssue]).map (fun i => (i.id, i.severity)) =
      [("SEO-001", "high"), ("SEO-002", "critical")] ∧
    (seoSortAndAssign [c1HighIssue, c1CritIssue]).map (fun i => (i.id, i.severity)) ≠
      [("SEO-001", "critical"), ("SEO-002", "high")] := by
  decide

/-- C2 (code bug): the image fix is not idempotent when the image tag has no
closing `>` on its line.  With `tagEnd = -1`, `line.substring(tagStart, 0)`
swaps its arguments and inspects the text before the tag, so the
already-fixed guard never sees the inserted `alt=""` and a second run
succeeds again, inserting a second `alt=""` instead of failing with the
already-fixed reason and leaving the content unchanged. -/
theorem c2_second_application_not_idempotent :
    applyImagesFix c2Issue (some c2Content) =
      fixOk "Added alt=\"\" (decorative) to <img> in a.html line 1."
        [("a.html.bak", c2Content), ("a.html", c2ContentAfterFirst)] ∧
    applyImagesFix c2Issue (some c2ContentAfterFirst) =
      fixOk "Added alt=\"\" (decorative) to <img> in a.html line 1."
        [("a.html.bak", c2ContentAfterFirst),
         ("a.html", "<img alt=\"\" alt=\"\" src=\"x\"\n>")] ∧
    "<img alt=\"\" alt=\"\" src=\"x\"\n>" ≠ c2ContentAfterFirst := by
  decide

/-- C4 counterexample: in dry-run mode the SEO orchestrator does not
synthesize a `fixed` outcome for an auto-fixable rendering finding; the
manual-only check precedes the dry-run synthesis, so the finding lands in
the manual-review bucket and the `fixed` list stays empty. -/
theorem c4_dry_run_rendering_not_synthesized :
    seoFilterIssues "all" [c4RendIssue] = [c4RendIssue] ∧
    c4RendIssue.autoFixPossible = true ∧
    (seoApplyFixes ⟨[c4RendIssue]⟩ "all" true oracleErr "T").fixed = [] ∧
    (seoApplyFixes ⟨[c4RendIssue]⟩ "all" true oracleErr "T").manual =
      [⟨"SEO-001", "p.js", "client-side rendering", "use SSR",
        "Rendering fixes require manual review and cannot be safely auto-applied."⟩] := by
  decide

/-- C6 counterexample: the accessibility orchestrator has no manual-only
category check.  A dynamic-category finding with `autoFixPossible = true` is
sent to `applyCategoryFix`, which finds no script for `dynamic` and returns a
failure, so the finding lands in `skipped` — not in `manualReview` as the
claim requires. -/
theorem c6_dynamic_autofixable_not_manual :
    a11yFilterIssues "all" [c6DynIssue] = [c6DynIssue] ∧
    (a11yApplyFixes ⟨[c6DynIssue]⟩ "all" false oracleErr "T").manual = [] ∧
    (a11yApplyFixes ⟨[c6DynIssue]⟩ "all" false oracleErr "T").skipped =
      [⟨"A11Y-001", "t.tsx", "toast has no live region",
        some "No fix script for category: dynamic"⟩] := by
  decide

/-- C7 counterexample: the accessibility orchestrator routes a finding with
`autoFixPossible = false` to the `manualReview` bucket (with the reason text
"Auto-fix not available — manual review required."), not to `skipped` as the
claim states. -/
theorem c7_noautofix_goes_to_manual_review :
    (a11yApplyFixes ⟨[c7NoFixIssue]⟩ "all" false oracleErr "T").skipped = [] ∧
    (a11yApplyFixes ⟨[c7NoFixIssue]⟩ "all" false oracleErr "T").manual =
      [⟨"A11Y-002", "i.tsx", "Element with role=\"img\" has no accessible name",
        "Add aria-label=\"description\"",
        "Auto-fix not available — manual review required."⟩] := by
  decide

/-- C8 counterexample: `fixDivToButton` replaces the first `</div>`
occurrence of the rewritten target line — here a closing tag of an earlier,
unrelated element sitting before the opening tag — and reports success,
while the structurally matching closing tag on the next line stays
`</div>`. -/
theorem c8_unrelated_closing_tag_rewritten :
    (fixDivToButton c8Issue "b.html" c8Content (splitLines c8Content) 0).success = true ∧
    (fixDivToButton c8Issue "b.html" c8Content (splitLines c8Content) 0).writes =
      [("b.html.bak", c8Content), ("b.html", c8ContentAfter)] ∧
    (splitLines c8ContentAfter).getD 1 "" = "</div>" := by
  decide

/-- C9 counterexample: for a file whose *name* contains "icon" holding one
image tag with no attributes, the scanner emits a critical `<img> tag
missing alt attribute` finding, not the medium "likely decorative" finding
the claim describes — the decorative heuristic reads the `src`/`class`
attribute values, which are absent here, and never the file name. -/
theorem c9_attributeless_img_is_critical :
    (scanImagesFile "icon.html" "<img >" "html").map
      (fun i => (i.severity, i.problem)) =
      [("critical", "<img> tag missing alt attribute")] := by
  decide

/-- C9 amended scenario: for a file containing one image tag without `alt`
whose `src` value contains "icon", the scanner produces exactly one Finding
(category images, severity medium, problem mentioning the likely-decorative
missing `alt=""`), and the image Fix Handler inserts `alt=""` right after
the tag-name token and its whitespace, writes the `.bak` copy of the prior
content first, and returns an action string naming the file and line. -/
theorem c9_decorative_src_scenario :
    scanImagesFile "home.html" c9Content "html" = [c9Finding] ∧
    applyImagesFix c9Finding (some c9Content) =
      fixOk "Added alt=\"\" (decorative) to <img> in home.html line 1."
        [("home.html.bak", c9Content), ("home.html", "<img alt=\"\" src=\"icon.png\">")] := by
  decide

/-- C3: for the image, retag and tabindex Fix Handlers, every successful
run performs exactly two writes — first the `.bak` sibling holding the full
pre-mutation file content, then the target file with the new content — and
every failure outcome performs no write at all. -/
theorem c3_backup_invariant :
    ∀ (issue : Issue) (fp content : String) (lines : List String) (li : Nat)
      (dec : Bool) (liI : Int),
      ((fixImgAlt issue fp content lines li dec).success = true →
        ∃ nc, (fixImgAlt issue fp content lines li dec).writes =
          [(fp ++ ".bak", content), (fp, nc)]) ∧
      ((fixImgAlt issue fp content lines li dec).success = false →
        (fixImgAlt issue fp content lines li dec).writes = []) ∧
      ((fixDivToButton issue fp content lines liI).success = true →
        ∃ nc, (fixDivToButton issue fp content lines liI).writes =
          [(fp ++ ".bak", content), (fp, nc)]) ∧
      ((fixDivToButton issue fp content lines liI).success = false →
        (fixDivToButton issue fp content lines liI).writes = []) ∧
      ((addTabindex issue fp content lines liI).success = true →
        ∃ nc, (addTabindex issue fp content lines liI).writes =
          [(fp ++ ".bak", content), (fp, nc)]) ∧
      ((addTabindex issue fp content lines liI).success = false →
        (addTabindex issue fp content lines liI).writes = []) := by
  intro issue fp content lines li dec liI
  have h1 := fixImgAlt_shape issue fp content lines li dec
  have h2 := fixDivToButton_shape issue fp content lines liI
  have h3 := addTabindex_shape issue fp content lines liI
  refine ⟨?_, ?_, ?_, ?_, ?_, ?_⟩
  · intro h
    rcases h1 with ⟨hs, _⟩ | ⟨_, hw⟩
    · rw [hs] at h; exact absurd h (by simp)
    · exact hw
  · intro h
    rcases h1 with ⟨_, hw⟩ | ⟨hs, _⟩
    · exact hw
    · rw [hs] at h; exact absurd h (by simp)
  · intro h
    rcases h2 with ⟨hs, _⟩ | ⟨_, hw⟩
    · rw [hs] at h; exact absurd h (by simp)
    · exact hw
  · intro h
    rcases h2 with ⟨_, hw⟩ | ⟨hs, _⟩
    · exact hw
    · rw [hs] at h; exact absurd h (by simp)
  · intro h
    rcases h3 with ⟨hs, _⟩ | ⟨_, hw⟩
    · rw [hs] at h; exact absurd h (by simp)
    · exact hw
  · intro h
    rcases h3 with ⟨_, hw⟩ | ⟨hs, _⟩
    · exact hw
    · rw [hs] at h; exact absurd h (by simp)

/-- C3 witness: a successful image fix on a one-line file yields exactly the
backup write followed by the mutated-file write. -/
theorem c3_backup_invariant_witness :
    ∃ nc, (fixImgAlt c2Issue "w.html" "<img x>" ["<img x>"] 0 true).writes =
      [("w.html" ++ ".bak", "<img x>"), ("w.html", nc)] := by
  exact (c3_backup_invariant c2Issue "w.html" "<img x>" ["<img x>"] 0 true 0).1
    (by decide)

/-- C4 amended: for every selector and Report, a dry-run invocation of
either Fix Orchestrator performs no filesystem writes and executes no
handler subprocess; every targeted auto-fixable finding outside the SEO
manual-only `rendering` category (the accessibility orchestrator has no
manual-only category) appears in `fixed` with the synthesized action
embedding its `recommendedFix`. -/
theorem c4_dry_run_purity :
    ∀ (report : Report) (filter now : String) (dispatch : Issue → DispatchRes),
      (seoApplyFixes report filter true dispatch now).writes = [] ∧
      (seoApplyFixes report filter true dispatch now).calls = [] ∧
      (a11yApplyFixes report filter true dispatch now).writes = [] ∧
      (a11yApplyFixes report filter true dispatch now).calls = [] ∧
      (∀ i ∈ seoFilterIssues filter report.issues,
        i.category ≠ "rendering" → i.autoFixPossible = true →
        (⟨i.id, i.file, i.problem,
          some ("Would apply fix: " ++ i.recommendedFix), true⟩ : FixEntry)
          ∈ (seoApplyFixes report filter true dispatch now).fixed) ∧
      (∀ i ∈ a11yFilterIssues filter report.issues, i.autoFixPossible = true →
        (⟨i.id, i.file, i.problem,
          some ("Would apply fix: " ++ i.recommendedFix), true⟩ : FixEntry)
          ∈ (a11yApplyFixes report filter true dispatch now).fixed) := by
  intro report filter now dispatch
  refine ⟨(seoApplyFixes_dry_effects report filter now dispatch).1,
    (seoApplyFixes_dry_effects report filter now dispatch).2,
    (a11yApplyFixes_dry_effects report filter now dispatch).1,
    (a11yApplyFixes_dry_effects report filter now dispatch).2, ?_, ?_⟩
  · intro i hi hcat hauto
    have hne : seoFilterIssues filter report.issues ≠ [] := by
      intro h; rw [h] at hi; exact absurd hi (List.not_mem_nil i)
    rw [(seoApplyFixes_buckets report filter true dispatch now hne).1]
    exact seoProcess_dry_fixed dispatch _ i hi hcat hauto
  · intro i hi hauto
    have hne : a11yFilterIssues filter report.issues ≠ [] := by
      intro h; rw [h] at hi; exact absurd hi (List.not_mem_nil i)
    rw [(a11yApplyFixes_buckets report filter true dispatch now hne).1]
    exact a11yProcess_dry_fixed dispatch _ i hi hauto

/-- C4 witness: the dry-run purity theorem applied at a concrete report and
selector. -/
theorem c4_dry_run_purity_witness :
    (seoApplyFixes ⟨[c4AutoIssue]⟩ "all" true oracleErr "T").writes = [] ∧
    (⟨"SEO-002", "q.html", "<img> tag missing alt attribute",
      some "Would apply fix: Add a descriptive alt attribute.", true⟩ : FixEntry)
      ∈ (seoApplyFixes ⟨[c4AutoIssue]⟩ "all" true oracleErr "T").fixed := by
  refine ⟨(c4_dry_run_purity ⟨[c4AutoIssue]⟩ "all" "T" oracleErr).1, ?_⟩
  exact (c4_dry_run_purity ⟨[c4AutoIssue]⟩ "all" "T" oracleErr).2.2.2.2.1
    c4AutoIssue (by decide) (by decide) (by decide)

/-- C6 amended: the SEO orchestrator routes every targeted
rendering-category finding directly to the manual-review bucket regardless
of `autoFixPossible` and never executes a handler for that category; the
accessibility orchestrator has no manual-only category check — a dynamic
finding reaches manual review only through `autoFixPossible = false`, while
a dynamic finding with `autoFixPossible = true` ends in `skipped` with a
"No fix script" reason in a non-dry-run, and in no case is a handler
executed for the `dynamic` category. -/
theorem c6_manual_only_routing :
    ∀ (report : Report) (filter now : String) (dryRun : Bool)
      (dispatch : Issue → DispatchRes),
      (∀ i ∈ seoFilterIssues filter report.issues, i.category = "rendering" →
        (⟨i.id, i.file, i.problem, i.recommendedFix,
          "Rendering fixes require manual review and cannot be safely auto-applied."⟩ : RecEntry)
          ∈ (seoApplyFixes report filter dryRun dispatch now).manual) ∧
      (∀ j ∈ (seoApplyFixes report filter dryRun dispatch now).calls,
        j.category ≠ "rendering") ∧
      (∀ i ∈ a11yFilterIssues filter report.issues, i.category = "dynamic" →
        i.autoFixPossible = false →
        (⟨i.id, i.file, i.problem, i.recommendedFix,
          "Auto-fix not available — manual review required."⟩ : RecEntry)
          ∈ (a11yApplyFixes report filter dryRun dispatch now).manual) ∧
      (∀ i ∈ a11yFilterIssues filter report.issues, i.category = "dynamic" →
        i.autoFixPossible = true → dryRun = false →
        (⟨i.id, i.file, i.problem,
          some ("No fix script for category: " ++ i.category)⟩ : SkipEntry)
          ∈ (a11yApplyFixes report filter dryRun dispatch now).skipped) ∧
      (∀ j ∈ (a11yApplyFixes report filter dryRun dispatch now).calls,
        j.category ≠ "dynamic") := by
  intro report filter now dryRun dispatch
  refine ⟨?_, ?_, ?_, ?_, ?_⟩
  · intro i hi hcat
    have hne : seoFilterIssues filter report.issues ≠ [] := by
      intro h; rw [h] at hi; exact absurd hi (List.not_mem_nil i)
    rw [(seoApplyFixes_buckets report filter dryRun dispatch now hne).2.2.1]
    exact seoProcess_rendering_manual dispatch dryRun _ i hi hcat
  · intro j hj
    by_cases hne : seoFilterIssues filter report.issues = []
    · exfalso
      have : (seoApplyFixes report filter dryRun dispatch now).calls = [] := by
        simp only [seoApplyFixes, hne]
        rfl
      rw [this] at hj
      exact absurd hj (List.not_mem_nil j)
    · rw [(seoApplyFixes_buckets report filter dryRun dispatch now hne).2.2.2] at hj
      exact (seoProcess_calls dispatch dryRun _ j hj).2.1
  · intro i hi hcat hauto
    have hne : a11yFilterIssues filter report.issues ≠ [] := by
      intro h; rw [h] at hi; exact absurd hi (List.not_mem_nil i)
    rw [(a11yApplyFixes_buckets report filter dryRun dispatch now hne).2.2.1]
    exact a11yProcess_noauto_manual dispatch dryRun _ i hi hauto
  · intro i hi hcat hauto hdr
    subst hdr
    have hne : a11yFilterIssues filter report.issues ≠ [] := by
      intro h; rw [h] at hi; exact absurd hi (List.not_mem_nil i)
    rw [(a11yApplyFixes_buckets report filter false dispatch now hne).2.1]
    exact a11yProcess_noscript_skipped dispatch _ i hi hauto (by rw [hcat]; decide)
  · intro j hj
    by_cases hne : a11yFilterIssues filter report.issues = []
    · exfalso
      have : (a11yApplyFixes report filter dryRun dispatch now).calls = [] := by
        simp only [a11yApplyFixes, hne]
        rfl
      rw [this] at hj
      exact absurd hj (List.not_mem_nil j)
    · rw [(a11yApplyFixes_buckets report filter dryRun dispatch now hne).2.2.2] at hj
      intro hdyn
      have := (a11yProcess_calls dispatch dryRun _ j hj).2.2
      rw [hdyn] at this
      simp [a11yScript] at this

/-- C6 witness: the manual-only routing theorem applied at a concrete
report. -/
theorem c6_manual_only_routing_witness :
    (⟨"SEO-001", "p.js", "client-side rendering", "use SSR",
      "Rendering fixes require manual review and cannot be safely auto-applied."⟩ : RecEntry)
      ∈ (seoApplyFixes ⟨[c4RendIssue]⟩ "all" false oracleErr "T").manual := by
  exact (c6_manual_only_routing ⟨[c4RendIssue]⟩ "all" "T" false oracleErr).1
    c4RendIssue (by decide) (by decide)

/-- C7 amended: a targeted finding with `autoFixPossible = false` is routed
without any handler execution — by the SEO orchestrator (outside the
rendering category) to `skipped` with reason "Auto-fix not available for
this issue.", and by the accessibility orchestrator to the `manualReview`
bucket with reason "Auto-fix not available — manual review required.";
both orchestrators only ever execute handlers for auto-fixable findings. -/
theorem c7_no_auto_remedy_routing :
    ∀ (report : Report) (filter now : String) (dryRun : Bool)
      (dispatch : Issue → DispatchRes),
      (∀ i ∈ seoFilterIssues filter report.issues, i.category ≠ "rendering" →
        i.autoFixPossible = false →
        (⟨i.id, i.file, i.problem,
          some "Auto-fix not available for this issue."⟩ : SkipEntry)
          ∈ (seoApplyFixes report filter dryRun dispatch now).skipped) ∧
      (∀ j ∈ (seoApplyFixes report filter dryRun dispatch now).calls,
        j.autoFixPossible = true) ∧
      (∀ i ∈ a11yFilterIssues filter report.issues, i.autoFixPossible = false →
        (⟨i.id, i.file, i.problem, i.recommendedFix,
          "Auto-fix not available — manual review required."⟩ : RecEntry)
          ∈ (a11yApplyFixes report filter dryRun dispatch now).manual) ∧
      (∀ j ∈ (a11yApplyFixes report filter dryRun dispatch now).calls,
        j.autoFixPossible = true) := by
  intro report filter now dryRun dispatch
  refine ⟨?_, ?_, ?_, ?_⟩
  · intro i hi hcat hauto
    have hne : seoFilterIssues filter report.issues ≠ [] := by
      intro h; rw [h] at hi; exact absurd hi (List.not_mem_nil i)
    rw [(seoApplyFixes_buckets report filter dryRun dispatch now hne).2.1]
    exact seoProcess_noauto_skipped dispatch dryRun _ i hi hcat hauto
  · intro j hj
    by_cases hne : seoFilterIssues filter report.issues = []
    · exfalso
      have : (seoApplyFixes report filter dryRun dispatch now).calls = [] := by
        simp only [seoApplyFixes, hne]
        rfl
      rw [this] at hj
      exact absurd hj (List.not_mem_nil j)
    · rw [(seoApplyFixes_buckets report filter dryRun dispatch now hne).2.2.2] at hj
      exact (seoProcess_calls dispatch dryRun _ j hj).2.2.1
  · intro i hi hauto
    have hne : a11yFilterIssues filter report.issues ≠ [] := by
      intro h; rw [h] at hi; exact absurd hi (List.not_mem_nil i)
    rw [(a11yApplyFixes_buckets report filter dryRun dispatch now hne).2.2.1]
    exact a11yProcess_noauto_manual dispatch dryRun _ i hi hauto
  · intro j hj
    by_cases hne : a11yFilterIssues filter report.issues = []
    · exfalso
      have : (a11yApplyFixes report filter dryRun dispatch now).calls = [] := by
        simp only [a11yApplyFixes, hne]
        rfl
      rw [this] at hj
      exact absurd hj (List.not_mem_nil j)
    · rw [(a11yApplyFixes_buckets report filter dryRun dispatch now hne).2.2.2] at hj
      exact (a11yProcess_calls dispatch dryRun _ j hj).2.1

/-- C5: in a non-dry-run batch, every targeted finding is accounted for in
exactly one of the fixed/skipped/manual-review buckets (the bucket ids are a
permutation of the targeted ids, so the counts add up to K), and a finding
whose handler invocation terminates abnormally — crash, timeout or
malformed output, all surfacing as a thrown error — becomes a `skipped`
entry carrying that failure reason while the rest of the batch still
receives outcomes.  Stated for both orchestrators. -/
theorem c5_batch_isolation :
    ∀ (report : Report) (filter now : String) (dispatch : Issue → DispatchRes),
      ((a11yApplyFixes report filter false dispatch now).fixed.map FixEntry.id ++
       ((a11yApplyFixes report filter false dispatch now).skipped.map SkipEntry.id ++
        (a11yApplyFixes report filter false dispatch now).manual.map RecEntry.id)).Perm
        ((a11yFilterIssues filter report.issues).map Issue.id) ∧
      ((a11yApplyFixes report filter false dispatch now).fixed.length +
       (a11yApplyFixes report filter false dispatch now).skipped.length +
       (a11yApplyFixes report filter false dispatch now).manual.length =
        (a11yFilterIssues filter report.issues).length) ∧
      (∀ i ∈ a11yFilterIssues filter report.issues, i.autoFixPossible = true →
        (a11yScript i.category).isSome = true →
        ∀ m ws, dispatch i = ⟨Except.error m, ws⟩ →
          (⟨i.id, i.file, i.problem, some m⟩ : SkipEntry)
            ∈ (a11yApplyFixes report filter false dispatch now).skipped) ∧
      ((seoApplyFixes report filter false dispatch now).fixed.map FixEntry.id ++
       ((seoApplyFixes report filter false dispatch now).skipped.map SkipEntry.id ++
        (seoApplyFixes report filter false dispatch now).manual.map RecEntry.id)).Perm
        ((seoFilterIssues filter report.issues).map Issue.id) ∧
      (∀ i ∈ seoFilterIssues filter report.issues, i.category ≠ "rendering" →
        i.autoFixPossible = true → (seoScript i.category).isSome = true →
        ∀ m ws, dispatch i = ⟨Except.error m, ws⟩ →
          (⟨i.id, i.file, i.problem, some m⟩ : SkipEntry)
            ∈ (seoApplyFixes report filter false dispatch now).skipped) := by
  intro report filter now dispatch
  have aperm :
      ((a11yApplyFixes report filter false dispatch now).fixed.map FixEntry.id ++
       ((a11yApplyFixes report filter false dispatch now).skipped.map SkipEntry.id ++
        (a11yApplyFixes report filter false dispatch now).manual.map RecEntry.id)).Perm
        ((a11yFilterIssues filter report.issues).map Issue.id) := by
    by_cases hne : a11yFilterIssues filter report.issues = []
    · rw [a11yApplyFixes_empty report filter false dispatch now hne, hne]
      exact List.Perm.refl _
    · obtain ⟨hf, hs, hm, _⟩ := a11yApplyFixes_buckets report filter false dispatch now hne
      rw [hf, hs, hm]
      exact a11yProcess_ids_perm dispatch _
  refine ⟨aperm, ?_, ?_, ?_, ?_⟩
  · have hl := aperm.length_eq
    simpa [Nat.add_assoc] using hl
  · intro i hi hauto hscript m ws hd
    have hne : a11yFilterIssues filter report.issues ≠ [] := by
      intro h; rw [h] at hi; exact absurd hi (List.not_mem_nil i)
    rw [(a11yApplyFixes_buckets report filter false dispatch now hne).2.1]
    exact a11yProcess_crash_skipped dispatch _ i hi hauto hscript m ws hd
  · by_cases hne : seoFilterIssues filter report.issues = []
    · rw [seoApplyFixes_empty report filter false dispatch now hne, hne]
      exact List.Perm.refl _
    · obtain ⟨hf, hs, hm, _⟩ := seoApplyFixes_buckets report filter false dispatch now hne
      rw [hf, hs, hm]
      exact seoProcess_ids_perm dispatch _
  · intro i hi hcat hauto hscript m ws hd
    have hne : seoFilterIssues filter report.issues ≠ [] := by
      intro h; rw [h] at hi; exact absurd hi (List.not_mem_nil i)
    rw [(seoApplyFixes_buckets report filter false dispatch now hne).2.1]
    exact seoProcess_crash_skipped dispatch _ i hi hcat hauto hscript m ws hd

/-- C5 witness: the batch-isolation theorem applied to a three-finding batch
whose middle handler times out. -/
theorem c5_batch_isolation_witness :
    (⟨"A11Y-102", "b.tsx", "Input with no label",
      some "spawnSync /bin/sh ETIMEDOUT"⟩ : SkipEntry)
      ∈ (a11yApplyFixes ⟨[c5IssueA, c5IssueB, c5IssueC]⟩ "all" false c5Oracle "T").skipped ∧
    ((a11yApplyFixes ⟨[c5IssueA, c5IssueB, c5IssueC]⟩ "all" false c5Oracle "T").fixed.length +
     (a11yApplyFixes ⟨[c5IssueA, c5IssueB, c5IssueC]⟩ "all" false c5Oracle "T").skipped.length +
     (a11yApplyFixes ⟨[c5IssueA, c5IssueB, c5IssueC]⟩ "all" false c5Oracle "T").manual.length =
      (a11yFilterIssues "all" [c5IssueA, c5IssueB, c5IssueC]).length) := by
  constructor
  · exact (c5_batch_isolation ⟨[c5IssueA, c5IssueB, c5IssueC]⟩ "all" "T" c5Oracle).2.2.1
      c5IssueB (by decide) (by decide) (by decide) "spawnSync /bin/sh ETIMEDOUT" [] rfl
  · exact (c5_batch_isolation ⟨[c5IssueA, c5IssueB, c5IssueC]⟩ "all" "T" c5Oracle).2.1

/-- C10: when the selector matches no finding in the loaded Report, either
orchestrator returns the successful empty result and performs no filesystem
write at all; and the fix-report markdown file is among the run's writes
exactly when the invocation is a non-dry-run with a nonempty selection. -/
theorem c10_empty_selection_no_report :
    ∀ (report : Report) (filter now : String) (dryRun : Bool)
      (dispatch : Issue → DispatchRes),
      (seoFilterIssues filter report.issues = [] →
        seoApplyFixes report filter dryRun dispatch now = ({} : OrchOut)) ∧
      ((∃ w ∈ (seoApplyFixes report filter dryRun dispatch now).writes,
          w.1 = "fix-report.md") ↔
        (dryRun = false ∧ seoFilterIssues filter report.issues ≠ [])) ∧
      (a11yFilterIssues filter report.issues = [] →
        a11yApplyFixes report filter dryRun dispatch now = ({} : OrchOut)) ∧
      ((∃ w ∈ (a11yApplyFixes report filter dryRun dispatch now).writes,
          w.1 = "a11y-fix-report.md") ↔
        (dryRun = false ∧ a11yFilterIssues filter report.issues ≠ [])) := by
  intro report filter now dryRun dispatch
  refine ⟨seoApplyFixes_empty report filter dryRun dispatch now, ?_,
    a11yApplyFixes_empty report filter dryRun dispatch now, ?_⟩
  · constructor
    · rintro ⟨w, hw, hname⟩
      cases dryRun with
      | true =>
        rw [(seoApplyFixes_dry_effects report filter now dispatch).1] at hw
        exact absurd hw (List.not_mem_nil w)
      | false =>
        refine ⟨rfl, ?_⟩
        intro h
        rw [seoApplyFixes_empty report filter false dispatch now h] at hw
        exact absurd hw (List.not_mem_nil w)
    · rintro ⟨hdr, hne⟩
      subst hdr
      rw [seoApplyFixes_report_write report filter dispatch now hne]
      exact ⟨_, List.mem_append_right _ (List.mem_singleton_self _), rfl⟩
  · constructor
    · rintro ⟨w, hw, hname⟩
      cases dryRun with
      | true =>
        rw [(a11yApplyFixes_dry_effects report filter now dispatch).1] at hw
        exact absurd hw (List.not_mem_nil w)
      | false =>
        refine ⟨rfl, ?_⟩
        intro h
        rw [a11yApplyFixes_empty report filter false dispatch now h] at hw
        exact absurd hw (List.not_mem_nil w)
    · rintro ⟨hdr, hne⟩
      subst hdr
      rw [a11yApplyFixes_report_write report filter dispatch now hne]
      exact ⟨_, List.mem_append_right _ (List.mem_singleton_self _), rfl⟩

/-- C8 amended: for the two-sided retag handler, any failure outcome leaves
the file unchanged (no writes); a nested interactive element on the target
line at or after the opening tag yields the specific nested-interactive
failure; absence of any closing-tag occurrence on the rewritten target line
and on every later line yields the specific could-not-find-closing failure;
and on success, the handler writes the `.bak` backup followed by the new
content, in which a closing tag has been rewritten to `</button>` — the
first occurrence found, which need not be the structurally matching one. -/
theorem c8_two_sided_retag :
    ∀ (issue : Issue) (fp content : String) (lines : List String) (liI : Int),
      ((fixDivToButton issue fp content lines liI).success = false →
        (fixDivToButton issue fp content lines liI).writes = []) ∧
      (∀ i0 tg w,
        ¬(liI < 0 ∨ (lines.length : Int) ≤ liI) →
        divSpanFind (lines.getD liI.toNat "") = some (i0, tg, w) →
        nestedInteractive (jsSubstringFrom (lines.getD liI.toNat "")
          (jsIndexOf (lines.getD liI.toNat "") ("<" ++ tg ++ String.singleton w))) = true →
        fixDivToButton issue fp content lines liI =
          fixFail "Nested interactive elements detected — cannot safely convert.") ∧
      (∀ i0 tg w,
        ¬(liI < 0 ∨ (lines.length : Int) ≤ liI) →
        divSpanFind (lines.getD liI.toNat "") = some (i0, tg, w) →
        nestedInteractive (jsSubstringFrom (lines.getD liI.toNat "")
          (jsIndexOf (lines.getD liI.toNat "") ("<" ++ tg ++ String.singleton w))) = false →
        hasHrefEq (jsSubstringFrom (lines.getD liI.toNat "")
          (jsIndexOf (lines.getD liI.toNat "") ("<" ++ tg ++ String.singleton w))) = false →
        containsSub (replaceOpenTag tg (lines.getD liI.toNat ""))
          ("</" ++ tg ++ ">") = false →
        (∀ l ∈ lines.drop (liI.toNat + 1), containsSub l ("</" ++ tg ++ ">") = false) →
        fixDivToButton issue fp content lines liI =
          fixFail ("Could not find closing </" ++ tg ++ "> tag.")) ∧
      ((fixDivToButton issue fp content lines liI).success = true →
        ∃ nc, (fixDivToButton issue fp content lines liI).writes =
          [(fp ++ ".bak", content), (fp, nc)] ∧
          containsSub nc "</button>" = true) := by
  intro issue fp content lines liI
  refine ⟨?_, ?_, ?_, ?_⟩
  · intro h
    rcases fixDivToButton_shape issue fp content lines liI with ⟨_, hw⟩ | ⟨hs, _⟩
    · exact hw
    · rw [hs] at h
      exact absurd h (by simp)
  · intro i0 tg w hb hfind hnest
    simp only [fixDivToButton]
    rw [if_neg hb, hfind]
    simp only [hnest]
    rfl
  · intro i0 tg w hb hfind hnest hhref hsame hbelow
    simp only [fixDivToButton]
    rw [if_neg hb, hfind]
    simp only [hnest, hhref, hsame, Bool.false_eq_true, if_false]
    rw [drop_set_succ, replaceCloseInLines_none_of_all _ _ _ hbelow]
    rfl
  · intro h
    have hb : ¬(liI < 0 ∨ (lines.length : Int) ≤ liI) := by
      by_contra hb
      rw [show fixDivToButton issue fp content lines liI =
        fixFail "Could not locate the issue line." from by
          simp only [fixDivToButton]; rw [if_pos hb]] at h
      exact absurd h (by simp [fixFail])
    have hlt : liI.toNat < lines.length := by
      push_neg at hb
      omega
    simp only [fixDivToButton] at h ⊢
    rw [if_neg hb] at h ⊢
    cases hval : divSpanFind (lines.getD liI.toNat "") with
    | none =>
      rw [hval] at h
      exact absurd h (by simp [fixFail])
    | some t =>
      obtain ⟨i0, tg, w⟩ := t
      rw [hval] at h
      dsimp only at h ⊢
      by_cases hn : nestedInteractive (jsSubstringFrom (lines.getD liI.toNat "")
          (jsIndexOf (lines.getD liI.toNat "") ("<" ++ tg ++ String.singleton w))) = true
      · rw [if_pos hn] at h
        exact absurd h (by simp [fixFail])
      · rw [if_neg hn] at h ⊢
        by_cases hh : hasHrefEq (jsSubstringFrom (lines.getD liI.toNat "")
            (jsIndexOf (lines.getD liI.toNat "") ("<" ++ tg ++ String.singleton w))) = true
        · rw [if_pos hh] at h
          exact absurd h (by simp [fixFail])
        · rw [if_neg hh] at h ⊢
          by_cases hsame : containsSub (replaceOpenTag tg (lines.getD liI.toNat ""))
              ("</" ++ tg ++ ">") = true
          · simp only [if_pos hsame] at h ⊢
            refine ⟨_, rfl, ?_⟩
            exact joinLines_contains_of_mem _ _ _ (mem_set_self _ _ _ hlt)
              (replaceFirstSub_contains _ _ _ hsame)
          · simp only [if_neg hsame] at h ⊢
            cases ho : replaceCloseInLines ("</" ++ tg ++ ">") "</button>"
                ((lines.set liI.toNat (replaceOpenTag tg (lines.getD liI.toNat ""))).drop
                  (liI.toNat + 1)) with
            | none =>
              rw [ho] at h
              exact absurd h (by simp [fixFail])
            | some r =>
              dsimp only [Option.map] at h ⊢
              refine ⟨_, rfl, ?_⟩
              obtain ⟨l, hl, hcl⟩ := replaceCloseInLines_some_contains _ _ _ r ho
              exact joinLines_contains_of_mem _ l _ (List.mem_append_right _ hl) hcl

/-- C8 witness: a target line with an opening `div` and no closing tag
anywhere at or after it makes the handler fail with the specific
could-not-find-closing reason (and, by the failure clause, write nothing). -/
theorem c8_two_sided_retag_witness :
    fixDivToButton c8Issue "b.html" c8NoCloseContent
      (splitLines c8NoCloseContent) 0 =
      fixFail "Could not find closing </div> tag." := by
  exact (c8_two_sided_retag c8Issue "b.html" c8NoCloseContent
      (splitLines c8NoCloseContent) 0).2.2.1 0 "div" ' '
    (by decide) (by decide) (by decide) (by decide) (by decide) (by decide)

/-- C10 witness: a selector matching nothing yields the empty successful
result, and a nonempty non-dry-run selection does write the fix report. -/
theorem c10_empty_selection_no_report_witness :
    seoApplyFixes ⟨[c4RendIssue]⟩ "gtm" false oracleErr "T" = ({} : OrchOut) ∧
    (∃ w ∈ (seoApplyFixes ⟨[c4RendIssue]⟩ "all" false oracleErr "T").writes,
      w.1 = "fix-report.md") := by
  constructor
  · exact (c10_empty_selection_no_report ⟨[c4RendIssue]⟩ "gtm" "T" false oracleErr).1
      (by decide)
  · exact ((c10_empty_selection_no_report ⟨[c4RendIssue]⟩ "all" "T" false oracleErr).2.1).mpr
      ⟨rfl, by decide⟩

/-- C7 witness: the no-auto-remedy routing theorem applied at a concrete
report. -/
theorem c7_no_auto_remedy_routing_witness :
    (⟨"A11Y-002", "i.tsx", "Element with role=\"img\" has no accessible name",
      "Add aria-label=\"description\"",
      "Auto-fix not available — manual review required."⟩ : RecEntry)
      ∈ (a11yApplyFixes ⟨[c7NoFixIssue]⟩ "all" false oracleErr "T").manual := by
  exact (c7_no_auto_remedy_routing ⟨[c7NoFixIssue]⟩ "all" "T" false oracleErr).2.2.1
    c7NoFixIssue (by decide) (by decide)

end CCP
